import Mathlib

/-!
Verification of the changefeed / backup-schedule / persistent-cursor /
credential-broker logic of the terraform-provider-cockroach-extra repository.

Strings are modelled as `List Char` (`Str`); the Go standard-library string
helpers used by the source (`strings.Split`, `strings.SplitN` with limit 2,
`strings.Trim` with a one-character cutset, `strings.TrimSpace`,
`strings.Join`, `strings.Replace` with n = -1) are embedded as recursive
functions below.  `strings.TrimSpace` is modelled on the ASCII whitespace
characters, which are the only whitespace characters the rendered statements
can contain.
-/

namespace CrdbExtra

abbrev Str := List Char

/-- Shorthand to write `Str` literals. -/
def lit (s : String) : Str := s.toList

/-- Go `strings.Split(s, string(c))`: splits on every occurrence of `c`;
splitting the empty string yields `[""]`. -/
def splitOnChar (c : Char) : Str → List Str
  | [] => [[]]
  | x :: s =>
    if x = c then [] :: splitOnChar c s
    else
      match splitOnChar c s with
      | h :: t => (x :: h) :: t
      | [] => [[x]]

/-- Go `strings.SplitN(s, string(c), 2)`: the part before the first `c` and,
when `c` occurs, the remainder after it. -/
def splitN2 (c : Char) : Str → Str × Option Str
  | [] => ([], none)
  | x :: s =>
    if x = c then ([], some s)
    else
      let r := splitN2 c s
      (x :: r.1, r.2)

/-- Drop the characters satisfying `p` from both ends of a string
(Go `strings.Trim` / `strings.TrimSpace` shape). -/
def trimBy (p : Char → Bool) (s : Str) : Str :=
  ((s.dropWhile p).reverse.dropWhile p).reverse

/-- Go `strings.Trim(s, string(c))` for a one-character cutset. -/
def trimChar (c : Char) : Str → Str := trimBy (· == c)

/-- ASCII fragment of Go `unicode.IsSpace`. -/
def goIsSpace (c : Char) : Bool :=
  c == ' ' || c == '\t' || c == '\n' || c == '\r'

/-- Go `strings.TrimSpace` (ASCII whitespace). -/
def trimSpace : Str → Str := trimBy goIsSpace

/-- Go `strings.Replace(s, string(c), repl, -1)`. -/
def replaceChar (c : Char) (repl : Str) : Str → Str
  | [] => []
  | x :: s => (if x = c then repl else [x]) ++ replaceChar c repl s

/-- Go `strings.Join(parts, sep)`. -/
def joinSep (sep : Str) : List Str → Str
  | [] => []
  | [p] => p
  | p :: q :: ps => p ++ sep ++ joinSep sep (q :: ps)

/-- Go `strings.Contains(s, string(c))` as a proposition. -/
def containsChar (c : Char) (s : Str) : Prop := c ∈ s

instance (c : Char) (s : Str) : Decidable (containsChar c s) :=
  inferInstanceAs (Decidable (c ∈ s))

/-! ### Basic lemmas about the string helpers -/

theorem splitOnChar_ne_nil (c : Char) (s : Str) : splitOnChar c s ≠ [] := by
  cases s with
  | nil => simp [splitOnChar]
  | cons x s =>
    simp only [splitOnChar]
    split
    · simp
    · split <;> simp

theorem splitOnChar_nil (c : Char) : splitOnChar c [] = [[]] := rfl

/-- Splitting a string with no separator occurrence yields the string itself. -/
theorem splitOnChar_of_not_mem {c : Char} {s : Str} (h : c ∉ s) :
    splitOnChar c s = [s] := by
  induction s with
  | nil => rfl
  | cons x s ih =>
    have hxc : x ≠ c := fun hx => h (hx ▸ List.mem_cons_self x s)
    have hs : c ∉ s := fun hc => h (List.mem_cons_of_mem x hc)
    simp only [splitOnChar, if_neg hxc, ih hs]

/-- Splitting `p ++ c :: rest` where `p` is separator-free peels off `p`. -/
theorem splitOnChar_append {c : Char} {p : Str} (rest : Str) (h : c ∉ p) :
    splitOnChar c (p ++ c :: rest) = p :: splitOnChar c rest := by
  induction p with
  | nil => simp [splitOnChar]
  | cons x p ih =>
    have hxc : x ≠ c := fun hx => h (hx ▸ List.mem_cons_self x p)
    have hp : c ∉ p := fun hc => h (List.mem_cons_of_mem x hc)
    simp only [List.cons_append, splitOnChar, if_neg hxc]
    rw [List.append_eq, ih hp]

/-- A non-separator head character is prepended to the first piece. -/
theorem splitOnChar_cons_head {c x : Char} (s : Str) (hx : x ≠ c) :
    splitOnChar c (x :: s) =
      (x :: (splitOnChar c s).headI) :: (splitOnChar c s).tail := by
  simp only [splitOnChar, if_neg hx]
  rcases hh : splitOnChar c s with _ | ⟨h, t⟩
  · exact absurd hh (splitOnChar_ne_nil c s)
  · simp

theorem splitN2_nil (c : Char) : splitN2 c [] = ([], none) := rfl

/-- `SplitN(s, sep, 2)` on a string without the separator returns the string. -/
theorem splitN2_of_not_mem {c : Char} {s : Str} (h : c ∉ s) :
    splitN2 c s = (s, none) := by
  induction s with
  | nil => rfl
  | cons x s ih =>
    have hxc : x ≠ c := fun hx => h (hx ▸ List.mem_cons_self x s)
    have hs : c ∉ s := fun hc => h (List.mem_cons_of_mem x hc)
    simp [splitN2, if_neg hxc, ih hs]

/-- `SplitN(k ++ sep ++ v, sep, 2)` with separator-free `k` splits at `k`. -/
theorem splitN2_append {c : Char} {k : Str} (v : Str) (h : c ∉ k) :
    splitN2 c (k ++ c :: v) = (k, some v) := by
  induction k with
  | nil => simp [splitN2]
  | cons x k ih =>
    have hxc : x ≠ c := fun hx => h (hx ▸ List.mem_cons_self x k)
    have hk : c ∉ k := fun hc => h (List.mem_cons_of_mem x hc)
    simp [splitN2, if_neg hxc, ih hk]

theorem dropWhile_cons_of_neg (p : Char → Bool) (x : Char) (s : Str)
    (hx : p x = false) : (x :: s).dropWhile p = x :: s := by
  simp [List.dropWhile, hx]

theorem dropWhile_eq_self_of_all (p : Char → Bool) (l : Str)
    (h : ∀ y ∈ l, p y = false) : l.dropWhile p = l := by
  cases l with
  | nil => rfl
  | cons x s => exact dropWhile_cons_of_neg p x s (h x (List.mem_cons_self x s))

/-- Trimming leaves a string untouched when neither end satisfies `p`. -/
theorem trimBy_eq_self {p : Char → Bool} {s : Str}
    (h1 : ∀ x ∈ s.head?, p x = false) (h2 : ∀ x ∈ s.getLast?, p x = false) :
    trimBy p s = s := by
  cases s with
  | nil => rfl
  | cons x s =>
    have hx : p x = false := h1 x rfl
    unfold trimBy
    rw [dropWhile_cons_of_neg p x s hx]
    rcases hr : (x :: s).reverse with _ | ⟨y, t⟩
    · exact absurd hr (by simp)
    · have hy : p y = false := by
        apply h2
        rw [← List.head?_reverse, hr]
        rfl
      rw [dropWhile_cons_of_neg p y t hy, ← hr, List.reverse_reverse]

/-- Trimming the wrapping character from `c ++ v ++ c` recovers `v` when `v`
is free of that character. -/
theorem trimChar_wrap {c : Char} {v : Str} (h : c ∉ v) :
    trimChar c (c :: (v ++ [c])) = v := by
  unfold trimChar trimBy
  have hdrop : List.dropWhile (fun y => y == c) (c :: (v ++ [c])) =
      List.dropWhile (fun y => y == c) (v ++ [c]) := by
    simp [List.dropWhile]
  rw [hdrop]
  cases v with
  | nil => simp [List.dropWhile]
  | cons x xs =>
    have hx : (x == c) = false := by
      simp only [beq_eq_false_iff_ne, ne_eq]
      exact fun hxc => h (hxc ▸ List.mem_cons_self x xs)
    rw [List.cons_append, dropWhile_cons_of_neg (fun y => y == c) x (xs ++ [c]) hx]
    have hrev : (x :: (xs ++ [c])).reverse = c :: (xs.reverse ++ [x]) := by
      simp
    rw [hrev]
    have hdrop2 : List.dropWhile (fun y => y == c) (c :: (xs.reverse ++ [x])) =
        List.dropWhile (fun y => y == c) (xs.reverse ++ [x]) := by
      simp [List.dropWhile]
    rw [hdrop2]
    have hall : ∀ y ∈ xs.reverse ++ [x], ((y == c) = false) := by
      intro y hy
      simp only [beq_eq_false_iff_ne, ne_eq]
      intro hyc
      subst hyc
      rcases List.mem_append.mp hy with hy | hy
      · exact h (List.mem_cons_of_mem x (List.mem_reverse.mp hy))
      · exact h (by simp at hy; simp [hy])
    rw [dropWhile_eq_self_of_all (fun y => y == c) (xs.reverse ++ [x]) hall]
    simp

/-- Joining the pieces of a split with the separator recovers the string. -/
theorem joinSep_splitOnChar (c : Char) (s : Str) :
    joinSep [c] (splitOnChar c s) = s := by
  induction s with
  | nil => rfl
  | cons x s ih =>
    by_cases hx : x = c
    · subst hx
      rw [show splitOnChar x (x :: s) = [] :: splitOnChar x s by simp [splitOnChar]]
      rcases hh : splitOnChar x s with _ | ⟨h, t⟩
      · exact absurd hh (splitOnChar_ne_nil x s)
      · rw [hh] at ih
        exact congrArg (x :: ·) ih
    · rw [splitOnChar_cons_head s hx]
      rcases hh : splitOnChar c s with _ | ⟨h, t⟩
      · exact absurd hh (splitOnChar_ne_nil c s)
      · rw [hh] at ih
        show joinSep [c] ((x :: h) :: t) = x :: s
        cases t with
        | nil => exact congrArg (x :: ·) ih
        | cons q t => exact congrArg (x :: ·) ih

/-- Every piece of a split is separator-free. -/
theorem not_mem_of_mem_splitOnChar (c : Char) (s : Str) :
    ∀ p ∈ splitOnChar c s, c ∉ p := by
  induction s with
  | nil =>
    intro p hp
    simp [splitOnChar] at hp
    simp [hp]
  | cons x s ih =>
    intro p hp
    by_cases hx : x = c
    · subst hx
      rw [show splitOnChar x (x :: s) = [] :: splitOnChar x s by simp [splitOnChar]] at hp
      rcases List.mem_cons.mp hp with h | h
      · simp [h]
      · exact ih p h
    · rw [splitOnChar_cons_head s hx] at hp
      rcases hh : splitOnChar c s with _ | ⟨hd, t⟩
      · exact absurd hh (splitOnChar_ne_nil c s)
      rw [hh] at hp
      have hhd : c ∉ hd := ih hd (by rw [hh]; exact List.mem_cons_self hd t)
      rcases List.mem_cons.mp hp with h | h
      · have hph : p = x :: hd := by simpa using h
        subst hph
        intro hmem
        rcases List.mem_cons.mp hmem with h1 | h1
        · exact hx h1.symm
        · exact hhd h1
      · have hpt : p ∈ t := by simpa using h
        exact ih p (by rw [hh]; exact List.mem_cons_of_mem hd hpt)

/-- Decimal digit string of a natural number (Go `fmt.Sprintf` with a
non-negative `%d` argument). -/
def natToStr (n : Nat) : Str := Nat.toDigits 10 n

/-- Go `fmt.Sprintf` rendering of an `int64` with `%d`. -/
def intToStr (i : Int) : Str :=
  if i < 0 then '-' :: natToStr (-i).toNat else natToStr i.toNat

/-! ## C9 / C10: composite resource identifiers

From `getChangefeedId` (changefeed resource), `getBackupScheduleId` and
`BackupScheduleResource.Read` (backup schedule resource), and
`ParseCursorId` (persistent cursor resource). -/

/-- `getChangefeedId`: `fmt.Sprintf("changefeed|%s|%d", clusterId, jobId)`. -/
def getChangefeedId (clusterId : Str) (jobId : Int) : Str :=
  lit "changefeed|" ++ clusterId ++ '|' :: intToStr jobId

/-- `getBackupScheduleId`: `fmt.Sprintf("backup_schedule|%s|%s", clusterId, label)`. -/
def getBackupScheduleId (clusterId : Str) (label : Str) : Str :=
  lit "backup_schedule|" ++ clusterId ++ '|' :: label

/-- `PersistentCursorResource.Create`'s id:
`fmt.Sprintf("cursor|%s|%s", clusterId, key)`. -/
def getCursorId (clusterId : Str) (key : Str) : Str :=
  lit "cursor|" ++ clusterId ++ '|' :: key

/-- `ParseCursorId`: splits on `|`; demands exactly three parts with leading
tag `cursor`, otherwise panics.  `none` models the panic. -/
def parseCursorIdGo (cursorId : Str) : Option (Str × Str) :=
  match splitOnChar '|' cursorId with
  | [a, b, c] => if a = lit "cursor" then some (b, c) else none
  | _ => none

/-- One row of `SHOW SCHEDULES FOR BACKUP` as consumed by
`BackupScheduleResource.Read` (columns the id/recurrence reconstruction
uses; the parsed backup command is not needed for the identifier claim). -/
structure ScheduleRow where
  scheduleId : Int
  label : Str
  recurrence : Str
  backupType : Str
deriving DecidableEq, Repr

/-- The slice of `BackupScheduleResourceModel` state involved in the
identifier and recurrence assignments of `Read`. -/
structure BackupScheduleState where
  clusterId : Str
  label : Str
  id : Option Str
  recurring : Option Str
deriving DecidableEq, Repr

/-- `BackupScheduleResource.Read`'s state reconstruction: the row loop keeps
the last `FULL` row as the full backup and the last non-`FULL` row as the
incremental one; a missing full backup removes the resource (`none`);
otherwise `data.Id` is assigned `schedules.fullBackup.label` and
`data.Recurring` the incremental (else full) recurrence. -/
def backupScheduleReadState (st : BackupScheduleState) (rows : List ScheduleRow) :
    Option BackupScheduleState :=
  let fullBackup := (rows.filter (fun r => r.backupType = lit "FULL")).getLast?
  let incrementalBackup := (rows.filter (fun r => ¬(r.backupType = lit "FULL"))).getLast?
  match fullBackup with
  | none => none
  | some fb =>
    some { st with
      id := some fb.label
      recurring := some (match incrementalBackup with
        | some ib => ib.recurrence
        | none => fb.recurrence) }

/-- `BackupScheduleResource.Create` computes the stored id through
`getBackupScheduleId`. -/
def backupScheduleCreateId (st : BackupScheduleState) : Str :=
  getBackupScheduleId st.clusterId st.label

/-! ## C1: changefeed option rendering (Create) and parsing (Read)

`ChangefeedResourceModel.Options` has 32 attributes; `types.String` and
`types.Bool` values are nullable, modelled as `Option Str` / `Option Bool`.
The fields appear in Go struct declaration order, which is the order the
reflection loop of `Create` visits them. -/

structure ChangefeedOptions where
  avroSchemaPrefix : Option Str := none
  compression : Option Str := none
  confluentSchemaRegistry : Option Str := none
  cursor : Option Str := none
  diff : Option Bool := none
  endTime : Option Str := none
  envelope : Option Str := none
  executionLocality : Option Str := none
  format : Option Str := none
  fullTableName : Option Bool := none
  gcProtectExpiresAfter : Option Str := none
  initialScan : Option Str := none
  kafkaSinkConfig : Option Str := none
  keyColumn : Option Str := none
  keyInValue : Option Bool := none
  laggingRangesThreshold : Option Str := none
  laggingRangesPollingInterval : Option Str := none
  metricsLabel : Option Str := none
  minCheckpointFrequency : Option Str := none
  mvccTimestamp : Option Bool := none
  onError : Option Str := none
  protectDataFromGcOnPause : Option Bool := none
  resolved : Option Str := none
  schemaChangeEvents : Option Str := none
  schemaChangePolicy : Option Str := none
  splitColumnFamilies : Option Bool := none
  topicInValue : Option Bool := none
  unordered : Option Bool := none
  updated : Option Bool := none
  virtualColumns : Option Str := none
  webhookAuthHeader : Option Str := none
  webhookSinkConfig : Option Str := none
deriving DecidableEq, Repr

/-- The all-null option set (a fresh `ChangefeedResourceModel.Options`). -/
def blankOptions : ChangefeedOptions := {}

/-- `pq.QuoteLiteral` from lib/pq: double every single quote; if the result
contains a backslash, double the backslashes and wrap in a C-style
escape string with a leading space, otherwise wrap in single quotes. -/
def quoteLiteral (v : Str) : Str :=
  let esc := replaceChar '\'' (lit "''") v
  if '\\' ∈ esc then
    ' ' :: 'E' :: '\'' :: (replaceChar '\\' (lit "\\\\") esc ++ ['\''])
  else
    '\'' :: (esc ++ ['\''])

/-- A string-valued option's contribution to `Create`'s option list:
`tag=QuoteLiteral(value)` when non-null (`options = append(options, ...)`). -/
def optPieceS (key : String) (v : Option Str) : List Str :=
  match v with
  | none => []
  | some s => [lit key ++ '=' :: quoteLiteral s]

/-- A bool-valued option's contribution to `Create`'s option list: the bare
tag whenever the value is non-null. -/
def optPieceB (key : String) (v : Option Bool) : List Str :=
  match v with
  | none => []
  | some _ => [lit key]

/-- The option list built by `Create`'s reflection loop, in struct order. -/
def renderOptionList (o : ChangefeedOptions) : List Str :=
  optPieceS "avro_schema_prefix" o.avroSchemaPrefix ++
  optPieceS "compression" o.compression ++
  optPieceS "confluent_schema_registry" o.confluentSchemaRegistry ++
  optPieceS "cursor" o.cursor ++
  optPieceB "diff" o.diff ++
  optPieceS "end_time" o.endTime ++
  optPieceS "envelope" o.envelope ++
  optPieceS "execution_locality" o.executionLocality ++
  optPieceS "format" o.format ++
  optPieceB "full_table_name" o.fullTableName ++
  optPieceS "gc_protect_expires_after" o.gcProtectExpiresAfter ++
  optPieceS "initial_scan" o.initialScan ++
  optPieceS "kafka_sink_config" o.kafkaSinkConfig ++
  optPieceS "key_column" o.keyColumn ++
  optPieceB "key_in_value" o.keyInValue ++
  optPieceS "lagging_ranges_threshold" o.laggingRangesThreshold ++
  optPieceS "lagging_ranges_polling_interval" o.laggingRangesPollingInterval ++
  optPieceS "metrics_label" o.metricsLabel ++
  optPieceS "min_checkpoint_frequency" o.minCheckpointFrequency ++
  optPieceB "mvcc_timestamp" o.mvccTimestamp ++
  optPieceS "on_error" o.onError ++
  optPieceB "protect_data_from_gc_on_pause" o.protectDataFromGcOnPause ++
  optPieceS "resolved" o.resolved ++
  optPieceS "schema_change_events" o.schemaChangeEvents ++
  optPieceS "schema_change_policy" o.schemaChangePolicy ++
  optPieceB "split_column_families" o.splitColumnFamilies ++
  optPieceB "topic_in_value" o.topicInValue ++
  optPieceB "unordered" o.unordered ++
  optPieceB "updated" o.updated ++
  optPieceS "virtual_columns" o.virtualColumns ++
  optPieceS "webhook_auth_header" o.webhookAuthHeader ++
  optPieceS "webhook_sink_config" o.webhookSinkConfig

/-- `strings.Join(options, ", ")` — the WITH-clause text of `Create`. -/
def renderOptionsJoined (o : ChangefeedOptions) : Str :=
  joinSep (lit ", ") (renderOptionList o)

/-- `optionsString`: empty, or `WITH ` followed by the joined options. -/
def renderOptionsClause (o : ChangefeedOptions) : Str :=
  if renderOptionList o = [] then [] else lit "WITH " ++ renderOptionsJoined o

/-- `removeQuotes` from the changefeed resource:
`strings.Trim(strings.Trim(s, "\""), "'")`. -/
def removeQuotes (s : Str) : Str := trimChar '\'' (trimChar '"' s)

/-- The option switch of `Read`: assign the value (strings) or `true`
(flags) to the field named by `key`; unrecognized keys are ignored. -/
def setByKey (o : ChangefeedOptions) (key value : Str) : ChangefeedOptions :=
  if key = lit "avro_schema_prefix" then { o with avroSchemaPrefix := some value }
  else if key = lit "compression" then { o with compression := some value }
  else if key = lit "confluent_schema_registry" then { o with confluentSchemaRegistry := some value }
  else if key = lit "cursor" then { o with cursor := some value }
  else if key = lit "diff" then { o with diff := some true }
  else if key = lit "end_time" then { o with endTime := some value }
  else if key = lit "envelope" then { o with envelope := some value }
  else if key = lit "execution_locality" then { o with executionLocality := some value }
  else if key = lit "format" then { o with format := some value }
  else if key = lit "full_table_name" then { o with fullTableName := some true }
  else if key = lit "gc_protect_expires_after" then { o with gcProtectExpiresAfter := some value }
  else if key = lit "initial_scan" then { o with initialScan := some value }
  else if key = lit "kafka_sink_config" then { o with kafkaSinkConfig := some value }
  else if key = lit "key_column" then { o with keyColumn := some value }
  else if key = lit "key_in_value" then { o with keyInValue := some true }
  else if key = lit "lagging_ranges_threshold" then { o with laggingRangesThreshold := some value }
  else if key = lit "lagging_ranges_polling_interval" then { o with laggingRangesPollingInterval := some value }
  else if key = lit "metrics_label" then { o with metricsLabel := some value }
  else if key = lit "min_checkpoint_frequency" then { o with minCheckpointFrequency := some value }
  else if key = lit "mvcc_timestamp" then { o with mvccTimestamp := some true }
  else if key = lit "on_error" then { o with onError := some value }
  else if key = lit "protect_data_from_gc_on_pause" then { o with protectDataFromGcOnPause := some true }
  else if key = lit "resolved" then { o with resolved := some value }
  else if key = lit "schema_change_events" then { o with schemaChangeEvents := some value }
  else if key = lit "schema_change_policy" then { o with schemaChangePolicy := some value }
  else if key = lit "split_column_families" then { o with splitColumnFamilies := some true }
  else if key = lit "topic_in_value" then { o with topicInValue := some true }
  else if key = lit "unordered" then { o with unordered := some true }
  else if key = lit "updated" then { o with updated := some true }
  else if key = lit "virtual_columns" then { o with virtualColumns := some value }
  else if key = lit "webhook_auth_header" then { o with webhookAuthHeader := some value }
  else if key = lit "webhook_sink_config" then { o with webhookSinkConfig := some value }
  else o

/-- One iteration of `Read`'s option loop: `SplitN(option, "=", 2)`, trim the
key, trim and unquote the value (empty when there is no `=`), assign. -/
def applyOption (o : ChangefeedOptions) (piece : Str) : ChangefeedOptions :=
  setByKey o (trimSpace (splitN2 '=' piece).1)
    (match (splitN2 '=' piece).2 with
     | none => ([] : Str)
     | some r => removeQuotes (trimSpace r))

/-- `Read`'s option parsing: trim surrounding parens, split on commas, fold
the assignments over the state-loaded option set. -/
def parseOptions (init : ChangefeedOptions) (optionsRaw : Str) : ChangefeedOptions :=
  (splitOnChar ',' (trimChar ')' (trimChar '(' optionsRaw))).foldl applyOption init

/-- Re-parsing a flag option yields `true` regardless of the value it had;
string options keep their values. -/
def normalizeBools (o : ChangefeedOptions) : ChangefeedOptions :=
  { o with
    diff := o.diff.map (fun _ => true)
    fullTableName := o.fullTableName.map (fun _ => true)
    keyInValue := o.keyInValue.map (fun _ => true)
    mvccTimestamp := o.mvccTimestamp.map (fun _ => true)
    protectDataFromGcOnPause := o.protectDataFromGcOnPause.map (fun _ => true)
    splitColumnFamilies := o.splitColumnFamilies.map (fun _ => true)
    topicInValue := o.topicInValue.map (fun _ => true)
    unordered := o.unordered.map (fun _ => true)
    updated := o.updated.map (fun _ => true) }

/-- A string value survives the render/parse round trip when it contains no
comma (the parser splits on commas), no single quote (quote doubling is not
undone) and no backslash (the `E'...'` escape form is not undone). -/
def goodVal (v : Str) : Prop := ',' ∉ v ∧ '\'' ∉ v ∧ '\\' ∉ v

instance (v : Str) : Decidable (goodVal v) := inferInstanceAs (Decidable (_ ∧ _ ∧ _))

def optGood : Option Str → Prop
  | none => True
  | some v => goodVal v

instance (v : Option Str) : Decidable (optGood v) := by
  cases v with
  | none => exact isTrue trivial
  | some s => exact inferInstanceAs (Decidable (goodVal s))

/-- All 23 string-valued options have round-trip-safe values. -/
def goodOpts (o : ChangefeedOptions) : Prop :=
  optGood o.avroSchemaPrefix ∧ optGood o.compression ∧
  optGood o.confluentSchemaRegistry ∧ optGood o.cursor ∧
  optGood o.endTime ∧ optGood o.envelope ∧ optGood o.executionLocality ∧
  optGood o.format ∧ optGood o.gcProtectExpiresAfter ∧
  optGood o.initialScan ∧ optGood o.kafkaSinkConfig ∧ optGood o.keyColumn ∧
  optGood o.laggingRangesThreshold ∧ optGood o.laggingRangesPollingInterval ∧
  optGood o.metricsLabel ∧ optGood o.minCheckpointFrequency ∧
  optGood o.onError ∧ optGood o.resolved ∧ optGood o.schemaChangeEvents ∧
  optGood o.schemaChangePolicy ∧ optGood o.virtualColumns ∧
  optGood o.webhookAuthHeader ∧ optGood o.webhookSinkConfig

instance (o : ChangefeedOptions) : Decidable (goodOpts o) :=
  inferInstanceAs (Decidable (_ ∧ _))

/-! ### Round-trip lemmas -/

theorem replaceChar_not_mem {c : Char} (r : Str) {s : Str} (h : c ∉ s) :
    replaceChar c r s = s := by
  induction s with
  | nil => rfl
  | cons x s ih =>
    have hxc : x ≠ c := fun hx => h (hx ▸ List.mem_cons_self x s)
    have hs : c ∉ s := fun hc => h (List.mem_cons_of_mem x hc)
    simp [replaceChar, if_neg hxc, ih hs]

/-- On quote-free, backslash-free values `QuoteLiteral` just wraps in quotes. -/
theorem quoteLiteral_good {v : Str} (h : goodVal v) :
    quoteLiteral v = '\'' :: (v ++ ['\'']) := by
  obtain ⟨-, h2, h3⟩ := h
  unfold quoteLiteral
  rw [replaceChar_not_mem _ h2]
  simp only [if_neg h3]

theorem head?_append_of_ne_nil {l : Str} (r : Str) (h : l ≠ []) :
    (l ++ r).head? = l.head? := by
  cases l with
  | nil => exact absurd rfl h
  | cons x s => rfl

/-- The value part of a rendered option is untouched by `TrimSpace`. -/
theorem trimSpace_quoteLiteral {v : Str} (h : goodVal v) :
    trimSpace (quoteLiteral v) = quoteLiteral v := by
  rw [quoteLiteral_good h]
  apply trimBy_eq_self
  · intro x hx
    simp only [List.head?_cons, Option.mem_def, Option.some.injEq] at hx
    subst hx
    decide
  · intro x hx
    rw [show '\'' :: (v ++ ['\'']) = ('\'' :: v) ++ ['\''] from rfl,
      List.getLast?_concat] at hx
    simp only [Option.mem_def, Option.some.injEq] at hx
    subst hx
    decide

/-- `removeQuotes` undoes the quoting of a round-trip-safe value. -/
theorem removeQuotes_quoteLiteral {v : Str} (h : goodVal v) :
    removeQuotes (trimSpace (quoteLiteral v)) = v := by
  rw [trimSpace_quoteLiteral h, quoteLiteral_good h]
  unfold removeQuotes
  have hdq : trimChar '"' ('\'' :: (v ++ ['\''])) = '\'' :: (v ++ ['\'']) := by
    apply trimBy_eq_self
    · intro x hx
      simp only [List.head?_cons, Option.mem_def, Option.some.injEq] at hx
      subst hx
      decide
    · intro x hx
      rw [show '\'' :: (v ++ ['\'']) = ('\'' :: v) ++ ['\''] from rfl,
        List.getLast?_concat] at hx
      simp only [Option.mem_def, Option.some.injEq] at hx
      subst hx
      decide
  rw [hdq]
  exact trimChar_wrap h.2.1

/-- Keys contain no `=`, so a rendered `key=value` piece splits at the key. -/
theorem applyOption_str {k : String} {v : Str} (o : ChangefeedOptions)
    (hv : goodVal v) (hk1 : '=' ∉ lit k) (hk2 : trimSpace (lit k) = lit k) :
    applyOption o (lit k ++ '=' :: quoteLiteral v) = setByKey o (lit k) v := by
  unfold applyOption
  rw [splitN2_append (quoteLiteral v) hk1]
  simp only [hk2, removeQuotes_quoteLiteral hv]

/-- A flag piece has no `=`: the key is the whole piece, the value empty. -/
theorem applyOption_flag {k : String} (o : ChangefeedOptions)
    (hk1 : '=' ∉ lit k) (hk2 : trimSpace (lit k) = lit k) :
    applyOption o (lit k) = setByKey o (lit k) [] := by
  unfold applyOption
  rw [splitN2_of_not_mem hk1]
  simp only [hk2]

/-- A single leading space (from the `", "` join) does not change how a
piece is applied: it lands in the key part and `TrimSpace` removes it. -/
theorem applyOption_space (o : ChangefeedOptions) (p : Str) :
    applyOption o (' ' :: p) = applyOption o p := by
  unfold applyOption
  have hsp : splitN2 '=' (' ' :: p) = (' ' :: (splitN2 '=' p).1, (splitN2 '=' p).2) := by
    simp [splitN2]
  rw [hsp]
  have htr : trimSpace (' ' :: (splitN2 '=' p).1) = trimSpace (splitN2 '=' p).1 := by
    unfold trimSpace trimBy
    rw [show List.dropWhile goIsSpace (' ' :: (splitN2 '=' p).1)
        = List.dropWhile goIsSpace (splitN2 '=' p).1 by simp [List.dropWhile, goIsSpace]]
  rw [htr]

/-- An empty piece assigns nothing (`key` is empty, no case matches). -/
theorem applyOption_nil (o : ChangefeedOptions) : applyOption o [] = o := by
  unfold applyOption
  rw [splitN2_nil]
  show setByKey o (trimSpace []) [] = o
  rw [show trimSpace [] = [] from rfl]
  unfold setByKey
  repeat rw [if_neg (by decide)]

def charNotParen (x : Char) : Prop := x ≠ '(' ∧ x ≠ ')'

instance (x : Char) : Decidable (charNotParen x) :=
  inferInstanceAs (Decidable (_ ∧ _))

def optCharOK : Option Char → Prop
  | none => True
  | some x => charNotParen x

instance (oc : Option Char) : Decidable (optCharOK oc) := by
  cases oc with
  | none => exact isTrue trivial
  | some x => exact inferInstanceAs (Decidable (charNotParen x))

/-- The facts needed about every rendered option piece: nonempty, comma-free,
and paren-free at both ends (so the splitting and the paren trims of `Read`
leave the pieces intact). -/
def pieceOK (p : Str) : Prop :=
  p ≠ [] ∧ ',' ∉ p ∧ optCharOK p.head? ∧ optCharOK p.getLast?

instance (p : Str) : Decidable (pieceOK p) :=
  inferInstanceAs (Decidable (_ ∧ _ ∧ _ ∧ _))

theorem getLast?_append_right (l : Str) {r : Str} (h : r ≠ []) :
    (l ++ r).getLast? = r.getLast? := by
  have hr : r.reverse ≠ [] := by simpa using h
  rw [← List.head?_reverse, List.reverse_append, head?_append_of_ne_nil _ hr,
    List.head?_reverse]

theorem optPieceS_ok {key : String} {v : Option Str}
    (hk : pieceOK (lit key)) (hg : optGood v) :
    ∀ p ∈ optPieceS key v, pieceOK p := by
  intro p hp
  cases v with
  | none => simp [optPieceS] at hp
  | some s =>
    have hgs : goodVal s := hg
    have hpe : p = lit key ++ '=' :: quoteLiteral s := by
      simpa [optPieceS] using hp
    subst hpe
    obtain ⟨hk1, hk2, hk3, hk4⟩ := hk
    refine ⟨by simp [hk1], ?_, ?_, ?_⟩
    · intro hmem
      rcases List.mem_append.mp hmem with hmem | hmem
      · exact hk2 hmem
      · rcases List.mem_cons.mp hmem with hmem | hmem
        · exact absurd hmem (by decide)
        · rw [quoteLiteral_good hgs] at hmem
          rcases List.mem_cons.mp hmem with hmem | hmem
          · exact absurd hmem (by decide)
          · rcases List.mem_append.mp hmem with hmem | hmem
            · exact hgs.1 hmem
            · simp at hmem
    · rw [head?_append_of_ne_nil _ hk1]
      exact hk3
    · rw [getLast?_append_right _ (by simp)]
      rw [quoteLiteral_good hgs,
        show '=' :: ('\'' :: (s ++ ['\''])) = ('=' :: '\'' :: s) ++ ['\''] from rfl,
        List.getLast?_concat]
      exact ⟨by decide, by decide⟩

theorem optPieceB_ok {key : String} {v : Option Bool} (hk : pieceOK (lit key)) :
    ∀ p ∈ optPieceB key v, pieceOK p := by
  intro p hp
  cases v with
  | none => simp [optPieceB] at hp
  | some b =>
    have hpe : p = lit key := by simpa [optPieceB] using hp
    subst hpe
    exact hk

/-- Every piece `Create` renders from a round-trip-safe option set is
well formed. -/
theorem renderPieces_ok (o : ChangefeedOptions) (hg : goodOpts o) :
    ∀ p ∈ renderOptionList o, pieceOK p := by
  obtain ⟨g1, g2, g3, g4, g5, g6, g7, g8, g9, g10, g11, g12, g13, g14, g15,
    g16, g17, g18, g19, g20, g21, g22, g23⟩ := hg
  intro p hp
  simp only [renderOptionList, List.mem_append, or_assoc] at hp
  rcases hp with h | h | h | h | h | h | h | h | h | h | h | h | h | h | h |
    h | h | h | h | h | h | h | h | h | h | h | h | h | h | h | h | h
  · exact optPieceS_ok (by decide) g1 p h
  · exact optPieceS_ok (by decide) g2 p h
  · exact optPieceS_ok (by decide) g3 p h
  · exact optPieceS_ok (by decide) g4 p h
  · exact optPieceB_ok (by decide) p h
  · exact optPieceS_ok (by decide) g5 p h
  · exact optPieceS_ok (by decide) g6 p h
  · exact optPieceS_ok (by decide) g7 p h
  · exact optPieceS_ok (by decide) g8 p h
  · exact optPieceB_ok (by decide) p h
  · exact optPieceS_ok (by decide) g9 p h
  · exact optPieceS_ok (by decide) g10 p h
  · exact optPieceS_ok (by decide) g11 p h
  · exact optPieceS_ok (by decide) g12 p h
  · exact optPieceB_ok (by decide) p h
  · exact optPieceS_ok (by decide) g13 p h
  · exact optPieceS_ok (by decide) g14 p h
  · exact optPieceS_ok (by decide) g15 p h
  · exact optPieceS_ok (by decide) g16 p h
  · exact optPieceB_ok (by decide) p h
  · exact optPieceS_ok (by decide) g17 p h
  · exact optPieceB_ok (by decide) p h
  · exact optPieceS_ok (by decide) g18 p h
  · exact optPieceS_ok (by decide) g19 p h
  · exact optPieceS_ok (by decide) g20 p h
  · exact optPieceB_ok (by decide) p h
  · exact optPieceB_ok (by decide) p h
  · exact optPieceB_ok (by decide) p h
  · exact optPieceB_ok (by decide) p h
  · exact optPieceS_ok (by decide) g21 p h
  · exact optPieceS_ok (by decide) g22 p h
  · exact optPieceS_ok (by decide) g23 p h

theorem joinSep_head? (sep : Str) (ps : List Str) (h2 : ps.headI ≠ []) :
    (joinSep sep ps).head? = ps.headI.head? := by
  match ps with
  | [] => rfl
  | [p] => rfl
  | p :: q :: rs =>
    show ((p ++ sep) ++ joinSep sep (q :: rs)).head? = p.head?
    have hp : p ≠ [] := h2
    rw [head?_append_of_ne_nil _ (by simp [hp]), head?_append_of_ne_nil _ hp]

theorem joinSep_getLast? (sep : Str) (ps : List Str) (q : Str) (hq : q ≠ []) :
    (joinSep sep (ps ++ [q])).getLast? = q.getLast? := by
  induction ps with
  | nil => rfl
  | cons p ps ih =>
    have hsome : (joinSep sep (ps ++ [q])).getLast?.isSome := by
      rw [ih]
      exact List.getLast?_isSome.mpr hq
    have hne : joinSep sep (ps ++ [q]) ≠ [] :=
      List.getLast?_isSome.mp hsome
    cases ps with
    | nil =>
      show ((p ++ sep) ++ joinSep sep [q]).getLast? = q.getLast?
      rw [getLast?_append_right _ (by simpa using hne)]
      rfl
    | cons r rs =>
      show ((p ++ sep) ++ joinSep sep ((r :: rs) ++ [q])).getLast? = q.getLast?
      rw [getLast?_append_right _ (by simpa using hne)]
      exact ih

/-- On a joined piece list whose pieces are well formed, the leading
`strings.Trim(·, "(")` and `strings.Trim(·, ")")` of `Read` are no-ops. -/
theorem trims_joinSep (ps : List Str) (hps : ∀ p ∈ ps, pieceOK p) :
    trimChar ')' (trimChar '(' (joinSep (lit ", ") ps)) = joinSep (lit ", ") ps := by
  cases ps with
  | nil => rfl
  | cons p rest =>
    obtain ⟨init, q, hq⟩ :
        ∃ init last, p :: rest = init ++ [last] := by
      rcases List.eq_nil_or_concat (p :: rest) with h | ⟨init, last, h⟩
      · exact absurd h (by simp)
      · exact ⟨init, last, by simpa [List.concat_eq_append] using h⟩
    have hpOK := hps p (List.mem_cons_self p rest)
    have hqmem : q ∈ p :: rest := by rw [hq]; simp
    have hqOK := hps q hqmem
    have hhead : (joinSep (lit ", ") (p :: rest)).head? = p.head? :=
      joinSep_head? _ _ hpOK.1
    have hlast : (joinSep (lit ", ") (p :: rest)).getLast? = q.getLast? := by
      rw [hq]
      exact joinSep_getLast? _ _ _ hqOK.1
    have hh1 : ∀ x ∈ (joinSep (lit ", ") (p :: rest)).head?, charNotParen x := by
      intro x hx
      rw [hhead] at hx
      rcases hp : p.head? with _ | y
      · rw [hp] at hx; simp at hx
      · rw [hp] at hx
        have := hpOK.2.2.1
        rw [hp] at this
        simp only [Option.mem_def, Option.some.injEq] at hx
        exact hx ▸ this
    have hh2 : ∀ x ∈ (joinSep (lit ", ") (p :: rest)).getLast?, charNotParen x := by
      intro x hx
      rw [hlast] at hx
      rcases hp : q.getLast? with _ | y
      · rw [hp] at hx; simp at hx
      · rw [hp] at hx
        have := hqOK.2.2.2
        rw [hp] at this
        simp only [Option.mem_def, Option.some.injEq] at hx
        exact hx ▸ this
    have hTrim1 : trimChar '(' (joinSep (lit ", ") (p :: rest)) =
        joinSep (lit ", ") (p :: rest) := by
      apply trimBy_eq_self
      · intro x hx
        simpa using (hh1 x hx).1
      · intro x hx
        simpa using (hh2 x hx).1
    rw [hTrim1]
    apply trimBy_eq_self
    · intro x hx
      simpa using (hh1 x hx).2
    · intro x hx
      simpa using (hh2 x hx).2

/-- Splitting the rendered join back on commas: the first piece is intact and
every later piece carries the single space of the `", "` separator. -/
def spacedTail : List Str → List Str
  | [] => [[]]
  | p :: rest => p :: rest.map (fun q => ' ' :: q)

theorem splitOnChar_joinSep (ps : List Str) (h : ∀ p ∈ ps, ',' ∉ p) :
    splitOnChar ',' (joinSep (lit ", ") ps) = spacedTail ps := by
  induction ps with
  | nil => rfl
  | cons p rest ih =>
    cases rest with
    | nil =>
      show splitOnChar ',' p = [p]
      exact splitOnChar_of_not_mem (h p (List.mem_cons_self p []))
    | cons q rs =>
      show splitOnChar ',' ((p ++ lit ", ") ++ joinSep (lit ", ") (q :: rs)) = _
      rw [List.append_assoc]
      rw [show lit ", " ++ joinSep (lit ", ") (q :: rs)
          = ',' :: (' ' :: joinSep (lit ", ") (q :: rs)) from rfl]
      rw [splitOnChar_append _ (h p (List.mem_cons_self p (q :: rs)))]
      rw [splitOnChar_cons_head _ (by decide)]
      rw [ih (fun r hr => h r (List.mem_cons_of_mem p hr))]
      rfl

theorem foldl_map_space (l : List Str) (b : ChangefeedOptions) :
    (l.map (fun q => ' ' :: q)).foldl applyOption b = l.foldl applyOption b := by
  induction l generalizing b with
  | nil => rfl
  | cons x l ih =>
    simp only [List.map_cons, List.foldl_cons, applyOption_space]
    exact ih (applyOption b x)

theorem foldl_spacedTail (init : ChangefeedOptions) (ps : List Str) :
    (spacedTail ps).foldl applyOption init = ps.foldl applyOption init := by
  cases ps with
  | nil =>
    show applyOption init [] = init
    exact applyOption_nil init
  | cons p rest =>
    show ((p :: rest.map (fun q => ' ' :: q)).foldl applyOption init) = _
    simp only [List.foldl_cons]
    exact foldl_map_space rest (applyOption init p)

/-- `Read`'s parse of `Create`'s WITH-clause text reduces to folding the
assignments over the rendered pieces. -/
theorem parseOptions_renderJoined (o : ChangefeedOptions) (hg : goodOpts o) :
    parseOptions blankOptions (renderOptionsJoined o)
      = (renderOptionList o).foldl applyOption blankOptions := by
  have hok := renderPieces_ok o hg
  unfold parseOptions renderOptionsJoined
  rw [trims_joinSep _ hok, splitOnChar_joinSep _ (fun p hp => (hok p hp).2.1)]
  exact foldl_spacedTail blankOptions (renderOptionList o)

/-! ### Per-field fold lemmas: folding one rendered chunk assigns one field. -/

theorem foldPiece_avroSchemaPrefix (o b : ChangefeedOptions)
    (hg : optGood o.avroSchemaPrefix) (hb : b.avroSchemaPrefix = none) :
    (optPieceS "avro_schema_prefix" o.avroSchemaPrefix).foldl applyOption b
      = { b with avroSchemaPrefix := o.avroSchemaPrefix } := by
  cases h : o.avroSchemaPrefix with
  | none => simp only [optPieceS, List.foldl_nil]; rw [← hb]
  | some v =>
    have hgv : goodVal v := by rw [h] at hg; exact hg
    simp only [optPieceS, List.foldl_cons, List.foldl_nil]
    rw [applyOption_str b hgv (by decide) (by decide)]
    rfl

theorem foldPiece_compression (o b : ChangefeedOptions)
    (hg : optGood o.compression) (hb : b.compression = none) :
    (optPieceS "compression" o.compression).foldl applyOption b
      = { b with compression := o.compression } := by
  cases h : o.compression with
  | none => simp only [optPieceS, List.foldl_nil]; rw [← hb]
  | some v =>
    have hgv : goodVal v := by rw [h] at hg; exact hg
    simp only [optPieceS, List.foldl_cons, List.foldl_nil]
    rw [applyOption_str b hgv (by decide) (by decide)]
    rfl

theorem foldPiece_confluentSchemaRegistry (o b : ChangefeedOptions)
    (hg : optGood o.confluentSchemaRegistry) (hb : b.confluentSchemaRegistry = none) :
    (optPieceS "confluent_schema_registry" o.confluentSchemaRegistry).foldl applyOption b
      = { b with confluentSchemaRegistry := o.confluentSchemaRegistry } := by
  cases h : o.confluentSchemaRegistry with
  | none => simp only [optPieceS, List.foldl_nil]; rw [← hb]
  | some v =>
    have hgv : goodVal v := by rw [h] at hg; exact hg
    simp only [optPieceS, List.foldl_cons, List.foldl_nil]
    rw [applyOption_str b hgv (by decide) (by decide)]
    rfl

theorem foldPiece_cursor (o b : ChangefeedOptions)
    (hg : optGood o.cursor) (hb : b.cursor = none) :
    (optPieceS "cursor" o.cursor).foldl applyOption b
      = { b with cursor := o.cursor } := by
  cases h : o.cursor with
  | none => simp only [optPieceS, List.foldl_nil]; rw [← hb]
  | some v =>
    have hgv : goodVal v := by rw [h] at hg; exact hg
    simp only [optPieceS, List.foldl_cons, List.foldl_nil]
    rw [applyOption_str b hgv (by decide) (by decide)]
    rfl

theorem foldPiece_diff (o b : ChangefeedOptions) (hb : b.diff = none) :
    (optPieceB "diff" o.diff).foldl applyOption b
      = { b with diff := o.diff.map (fun _ => true) } := by
  cases h : o.diff with
  | none => simp only [optPieceB, List.foldl_nil, Option.map_none']; rw [← hb]
  | some bv =>
    simp only [optPieceB, List.foldl_cons, List.foldl_nil, Option.map_some']
    rw [applyOption_flag b (by decide) (by decide)]
    rfl

theorem foldPiece_endTime (o b : ChangefeedOptions)
    (hg : optGood o.endTime) (hb : b.endTime = none) :
    (optPieceS "end_time" o.endTime).foldl applyOption b
      = { b with endTime := o.endTime } := by
  cases h : o.endTime with
  | none => simp only [optPieceS, List.foldl_nil]; rw [← hb]
  | some v =>
    have hgv : goodVal v := by rw [h] at hg; exact hg
    simp only [optPieceS, List.foldl_cons, List.foldl_nil]
    rw [applyOption_str b hgv (by decide) (by decide)]
    rfl

theorem foldPiece_envelope (o b : ChangefeedOptions)
    (hg : optGood o.envelope) (hb : b.envelope = none) :
    (optPieceS "envelope" o.envelope).foldl applyOption b
      = { b with envelope := o.envelope } := by
  cases h : o.envelope with
  | none => simp only [optPieceS, List.foldl_nil]; rw [← hb]
  | some v =>
    have hgv : goodVal v := by rw [h] at hg; exact hg
    simp only [optPieceS, List.foldl_cons, List.foldl_nil]
    rw [applyOption_str b hgv (by decide) (by decide)]
    rfl

theorem foldPiece_executionLocality (o b : ChangefeedOptions)
    (hg : optGood o.executionLocality) (hb : b.executionLocality = none) :
    (optPieceS "execution_locality" o.executionLocality).foldl applyOption b
      = { b with executionLocality := o.executionLocality } := by
  cases h : o.executionLocality with
  | none => simp only [optPieceS, List.foldl_nil]; rw [← hb]
  | some v =>
    have hgv : goodVal v := by rw [h] at hg; exact hg
    simp only [optPieceS, List.foldl_cons, List.foldl_nil]
    rw [applyOption_str b hgv (by decide) (by decide)]
    rfl

theorem foldPiece_format (o b : ChangefeedOptions)
    (hg : optGood o.format) (hb : b.format = none) :
    (optPieceS "format" o.format).foldl applyOption b
      = { b with format := o.format } := by
  cases h : o.format with
  | none => simp only [optPieceS, List.foldl_nil]; rw [← hb]
  | some v =>
    have hgv : goodVal v := by rw [h] at hg; exact hg
    simp only [optPieceS, List.foldl_cons, List.foldl_nil]
    rw [applyOption_str b hgv (by decide) (by decide)]
    rfl

theorem foldPiece_fullTableName (o b : ChangefeedOptions) (hb : b.fullTableName = none) :
    (optPieceB "full_table_name" o.fullTableName).foldl applyOption b
      = { b with fullTableName := o.fullTableName.map (fun _ => true) } := by
  cases h : o.fullTableName with
  | none => simp only [optPieceB, List.foldl_nil, Option.map_none']; rw [← hb]
  | some bv =>
    simp only [optPieceB, List.foldl_cons, List.foldl_nil, Option.map_some']
    rw [applyOption_flag b (by decide) (by decide)]
    rfl

theorem foldPiece_gcProtectExpiresAfter (o b : ChangefeedOptions)
    (hg : optGood o.gcProtectExpiresAfter) (hb : b.gcProtectExpiresAfter = none) :
    (optPieceS "gc_protect_expires_after" o.gcProtectExpiresAfter).foldl applyOption b
      = { b with gcProtectExpiresAfter := o.gcProtectExpiresAfter } := by
  cases h : o.gcProtectExpiresAfter with
  | none => simp only [optPieceS, List.foldl_nil]; rw [← hb]
  | some v =>
    have hgv : goodVal v := by rw [h] at hg; exact hg
    simp only [optPieceS, List.foldl_cons, List.foldl_nil]
    rw [applyOption_str b hgv (by decide) (by decide)]
    rfl

theorem foldPiece_initialScan (o b : ChangefeedOptions)
    (hg : optGood o.initialScan) (hb : b.initialScan = none) :
    (optPieceS "initial_scan" o.initialScan).foldl applyOption b
      = { b with initialScan := o.initialScan } := by
  cases h : o.initialScan with
  | none => simp only [optPieceS, List.foldl_nil]; rw [← hb]
  | some v =>
    have hgv : goodVal v := by rw [h] at hg; exact hg
    simp only [optPieceS, List.foldl_cons, List.foldl_nil]
    rw [applyOption_str b hgv (by decide) (by decide)]
    rfl

theorem foldPiece_kafkaSinkConfig (o b : ChangefeedOptions)
    (hg : optGood o.kafkaSinkConfig) (hb : b.kafkaSinkConfig = none) :
    (optPieceS "kafka_sink_config" o.kafkaSinkConfig).foldl applyOption b
      = { b with kafkaSinkConfig := o.kafkaSinkConfig } := by
  cases h : o.kafkaSinkConfig with
  | none => simp only [optPieceS, List.foldl_nil]; rw [← hb]
  | some v =>
    have hgv : goodVal v := by rw [h] at hg; exact hg
    simp only [optPieceS, List.foldl_cons, List.foldl_nil]
    rw [applyOption_str b hgv (by decide) (by decide)]
    rfl

theorem foldPiece_keyColumn (o b : ChangefeedOptions)
    (hg : optGood o.keyColumn) (hb : b.keyColumn = none) :
    (optPieceS "key_column" o.keyColumn).foldl applyOption b
      = { b with keyColumn := o.keyColumn } := by
  cases h : o.keyColumn with
  | none => simp only [optPieceS, List.foldl_nil]; rw [← hb]
  | some v =>
    have hgv : goodVal v := by rw [h] at hg; exact hg
    simp only [optPieceS, List.foldl_cons, List.foldl_nil]
    rw [applyOption_str b hgv (by decide) (by decide)]
    rfl

theorem foldPiece_keyInValue (o b : ChangefeedOptions) (hb : b.keyInValue = none) :
    (optPieceB "key_in_value" o.keyInValue).foldl applyOption b
      = { b with keyInValue := o.keyInValue.map (fun _ => true) } := by
  cases h : o.keyInValue with
  | none => simp only [optPieceB, List.foldl_nil, Option.map_none']; rw [← hb]
  | some bv =>
    simp only [optPieceB, List.foldl_cons, List.foldl_nil, Option.map_some']
    rw [applyOption_flag b (by decide) (by decide)]
    rfl

theorem foldPiece_laggingRangesThreshold (o b : ChangefeedOptions)
    (hg : optGood o.laggingRangesThreshold) (hb : b.laggingRangesThreshold = none) :
    (optPieceS "lagging_ranges_threshold" o.laggingRangesThreshold).foldl applyOption b
      = { b with laggingRangesThreshold := o.laggingRangesThreshold } := by
  cases h : o.laggingRangesThreshold with
  | none => simp only [optPieceS, List.foldl_nil]; rw [← hb]
  | some v =>
    have hgv : goodVal v := by rw [h] at hg; exact hg
    simp only [optPieceS, List.foldl_cons, List.foldl_nil]
    rw [applyOption_str b hgv (by decide) (by decide)]
    rfl

theorem foldPiece_laggingRangesPollingInterval (o b : ChangefeedOptions)
    (hg : optGood o.laggingRangesPollingInterval)
    (hb : b.laggingRangesPollingInterval = none) :
    (optPieceS "lagging_ranges_polling_interval" o.laggingRangesPollingInterval).foldl
        applyOption b
      = { b with laggingRangesPollingInterval := o.laggingRangesPollingInterval } := by
  cases h : o.laggingRangesPollingInterval with
  | none => simp only [optPieceS, List.foldl_nil]; rw [← hb]
  | some v =>
    have hgv : goodVal v := by rw [h] at hg; exact hg
    simp only [optPieceS, List.foldl_cons, List.foldl_nil]
    rw [applyOption_str b hgv (by decide) (by decide)]
    rfl

theorem foldPiece_metricsLabel (o b : ChangefeedOptions)
    (hg : optGood o.metricsLabel) (hb : b.metricsLabel = none) :
    (optPieceS "metrics_label" o.metricsLabel).foldl applyOption b
      = { b with metricsLabel := o.metricsLabel } := by
  cases h : o.metricsLabel with
  | none => simp only [optPieceS, List.foldl_nil]; rw [← hb]
  | some v =>
    have hgv : goodVal v := by rw [h] at hg; exact hg
    simp only [optPieceS, List.foldl_cons, List.foldl_nil]
    rw [applyOption_str b hgv (by decide) (by decide)]
    rfl

theorem foldPiece_minCheckpointFrequency (o b : ChangefeedOptions)
    (hg : optGood o.minCheckpointFrequency) (hb : b.minCheckpointFrequency = none) :
    (optPieceS "min_checkpoint_frequency" o.minCheckpointFrequency).foldl applyOption b
      = { b with minCheckpointFrequency := o.minCheckpointFrequency } := by
  cases h : o.minCheckpointFrequency with
  | none => simp only [optPieceS, List.foldl_nil]; rw [← hb]
  | some v =>
    have hgv : goodVal v := by rw [h] at hg; exact hg
    simp only [optPieceS, List.foldl_cons, List.foldl_nil]
    rw [applyOption_str b hgv (by decide) (by decide)]
    rfl

theorem foldPiece_mvccTimestamp (o b : ChangefeedOptions) (hb : b.mvccTimestamp = none) :
    (optPieceB "mvcc_timestamp" o.mvccTimestamp).foldl applyOption b
      = { b with mvccTimestamp := o.mvccTimestamp.map (fun _ => true) } := by
  cases h : o.mvccTimestamp with
  | none => simp only [optPieceB, List.foldl_nil, Option.map_none']; rw [← hb]
  | some bv =>
    simp only [optPieceB, List.foldl_cons, List.foldl_nil, Option.map_some']
    rw [applyOption_flag b (by decide) (by decide)]
    rfl

theorem foldPiece_onError (o b : ChangefeedOptions)
    (hg : optGood o.onError) (hb : b.onError = none) :
    (optPieceS "on_error" o.onError).foldl applyOption b
      = { b with onError := o.onError } := by
  cases h : o.onError with
  | none => simp only [optPieceS, List.foldl_nil]; rw [← hb]
  | some v =>
    have hgv : goodVal v := by rw [h] at hg; exact hg
    simp only [optPieceS, List.foldl_cons, List.foldl_nil]
    rw [applyOption_str b hgv (by decide) (by decide)]
    rfl

theorem foldPiece_protectDataFromGcOnPause (o b : ChangefeedOptions)
    (hb : b.protectDataFromGcOnPause = none) :
    (optPieceB "protect_data_from_gc_on_pause" o.protectDataFromGcOnPause).foldl
        applyOption b
      = { b with protectDataFromGcOnPause := o.protectDataFromGcOnPause.map (fun _ => true) } := by
  cases h : o.protectDataFromGcOnPause with
  | none => simp only [optPieceB, List.foldl_nil, Option.map_none']; rw [← hb]
  | some bv =>
    simp only [optPieceB, List.foldl_cons, List.foldl_nil, Option.map_some']
    rw [applyOption_flag b (by decide) (by decide)]
    rfl

theorem foldPiece_resolved (o b : ChangefeedOptions)
    (hg : optGood o.resolved) (hb : b.resolved = none) :
    (optPieceS "resolved" o.resolved).foldl applyOption b
      = { b with resolved := o.resolved } := by
  cases h : o.resolved with
  | none => simp only [optPieceS, List.foldl_nil]; rw [← hb]
  | some v =>
    have hgv : goodVal v := by rw [h] at hg; exact hg
    simp only [optPieceS, List.foldl_cons, List.foldl_nil]
    rw [applyOption_str b hgv (by decide) (by decide)]
    rfl

theorem foldPiece_schemaChangeEvents (o b : ChangefeedOptions)
    (hg : optGood o.schemaChangeEvents) (hb : b.schemaChangeEvents = none) :
    (optPieceS "schema_change_events" o.schemaChangeEvents).foldl applyOption b
      = { b with schemaChangeEvents := o.schemaChangeEvents } := by
  cases h : o.schemaChangeEvents with
  | none => simp only [optPieceS, List.foldl_nil]; rw [← hb]
  | some v =>
    have hgv : goodVal v := by rw [h] at hg; exact hg
    simp only [optPieceS, List.foldl_cons, List.foldl_nil]
    rw [applyOption_str b hgv (by decide) (by decide)]
    rfl

theorem foldPiece_schemaChangePolicy (o b : ChangefeedOptions)
    (hg : optGood o.schemaChangePolicy) (hb : b.schemaChangePolicy = none) :
    (optPieceS "schema_change_policy" o.schemaChangePolicy).foldl applyOption b
      = { b with schemaChangePolicy := o.schemaChangePolicy } := by
  cases h : o.schemaChangePolicy with
  | none => simp only [optPieceS, List.foldl_nil]; rw [← hb]
  | some v =>
    have hgv : goodVal v := by rw [h] at hg; exact hg
    simp only [optPieceS, List.foldl_cons, List.foldl_nil]
    rw [applyOption_str b hgv (by decide) (by decide)]
    rfl

theorem foldPiece_splitColumnFamilies (o b : ChangefeedOptions)
    (hb : b.splitColumnFamilies = none) :
    (optPieceB "split_column_families" o.splitColumnFamilies).foldl applyOption b
      = { b with splitColumnFamilies := o.splitColumnFamilies.map (fun _ => true) } := by
  cases h : o.splitColumnFamilies with
  | none => simp only [optPieceB, List.foldl_nil, Option.map_none']; rw [← hb]
  | some bv =>
    simp only [optPieceB, List.foldl_cons, List.foldl_nil, Option.map_some']
    rw [applyOption_flag b (by decide) (by decide)]
    rfl

theorem foldPiece_topicInValue (o b : ChangefeedOptions) (hb : b.topicInValue = none) :
    (optPieceB "topic_in_value" o.topicInValue).foldl applyOption b
      = { b with topicInValue := o.topicInValue.map (fun _ => true) } := by
  cases h : o.topicInValue with
  | none => simp only [optPieceB, List.foldl_nil, Option.map_none']; rw [← hb]
  | some bv =>
    simp only [optPieceB, List.foldl_cons, List.foldl_nil, Option.map_some']
    rw [applyOption_flag b (by decide) (by decide)]
    rfl

theorem foldPiece_unordered (o b : ChangefeedOptions) (hb : b.unordered = none) :
    (optPieceB "unordered" o.unordered).foldl applyOption b
      = { b with unordered := o.unordered.map (fun _ => true) } := by
  cases h : o.unordered with
  | none => simp only [optPieceB, List.foldl_nil, Option.map_none']; rw [← hb]
  | some bv =>
    simp only [optPieceB, List.foldl_cons, List.foldl_nil, Option.map_some']
    rw [applyOption_flag b (by decide) (by decide)]
    rfl

theorem foldPiece_updated (o b : ChangefeedOptions) (hb : b.updated = none) :
    (optPieceB "updated" o.updated).foldl applyOption b
      = { b with updated := o.updated.map (fun _ => true) } := by
  cases h : o.updated with
  | none => simp only [optPieceB, List.foldl_nil, Option.map_none']; rw [← hb]
  | some bv =>
    simp only [optPieceB, List.foldl_cons, List.foldl_nil, Option.map_some']
    rw [applyOption_flag b (by decide) (by decide)]
    rfl

theorem foldPiece_virtualColumns (o b : ChangefeedOptions)
    (hg : optGood o.virtualColumns) (hb : b.virtualColumns = none) :
    (optPieceS "virtual_columns" o.virtualColumns).foldl applyOption b
      = { b with virtualColumns := o.virtualColumns } := by
  cases h : o.virtualColumns with
  | none => simp only [optPieceS, List.foldl_nil]; rw [← hb]
  | some v =>
    have hgv : goodVal v := by rw [h] at hg; exact hg
    simp only [optPieceS, List.foldl_cons, List.foldl_nil]
    rw [applyOption_str b hgv (by decide) (by decide)]
    rfl

theorem foldPiece_webhookAuthHeader (o b : ChangefeedOptions)
    (hg : optGood o.webhookAuthHeader) (hb : b.webhookAuthHeader = none) :
    (optPieceS "webhook_auth_header" o.webhookAuthHeader).foldl applyOption b
      = { b with webhookAuthHeader := o.webhookAuthHeader } := by
  cases h : o.webhookAuthHeader with
  | none => simp only [optPieceS, List.foldl_nil]; rw [← hb]
  | some v =>
    have hgv : goodVal v := by rw [h] at hg; exact hg
    simp only [optPieceS, List.foldl_cons, List.foldl_nil]
    rw [applyOption_str b hgv (by decide) (by decide)]
    rfl

theorem foldPiece_webhookSinkConfig (o b : ChangefeedOptions)
    (hg : optGood o.webhookSinkConfig) (hb : b.webhookSinkConfig = none) :
    (optPieceS "webhook_sink_config" o.webhookSinkConfig).foldl applyOption b
      = { b with webhookSinkConfig := o.webhookSinkConfig } := by
  cases h : o.webhookSinkConfig with
  | none => simp only [optPieceS, List.foldl_nil]; rw [← hb]
  | some v =>
    have hgv : goodVal v := by rw [h] at hg; exact hg
    simp only [optPieceS, List.foldl_cons, List.foldl_nil]
    rw [applyOption_str b hgv (by decide) (by decide)]
    rfl

/-- Folding all rendered pieces over a blank option set reproduces the
option set, with flags normalized to `true`. -/
theorem foldl_render (o : ChangefeedOptions) (hg : goodOpts o) :
    (renderOptionList o).foldl applyOption blankOptions = normalizeBools o := by
  obtain ⟨g1, g2, g3, g4, g5, g6, g7, g8, g9, g10, g11, g12, g13, g14, g15,
    g16, g17, g18, g19, g20, g21, g22, g23⟩ := hg
  simp only [renderOptionList, List.foldl_append]
  rw [foldPiece_avroSchemaPrefix, foldPiece_compression,
    foldPiece_confluentSchemaRegistry, foldPiece_cursor, foldPiece_diff,
    foldPiece_endTime, foldPiece_envelope, foldPiece_executionLocality,
    foldPiece_format, foldPiece_fullTableName, foldPiece_gcProtectExpiresAfter,
    foldPiece_initialScan, foldPiece_kafkaSinkConfig, foldPiece_keyColumn,
    foldPiece_keyInValue, foldPiece_laggingRangesThreshold,
    foldPiece_laggingRangesPollingInterval, foldPiece_metricsLabel,
    foldPiece_minCheckpointFrequency, foldPiece_mvccTimestamp,
    foldPiece_onError, foldPiece_protectDataFromGcOnPause, foldPiece_resolved,
    foldPiece_schemaChangeEvents, foldPiece_schemaChangePolicy,
    foldPiece_splitColumnFamilies, foldPiece_topicInValue, foldPiece_unordered,
    foldPiece_updated, foldPiece_virtualColumns, foldPiece_webhookAuthHeader,
    foldPiece_webhookSinkConfig]
  · rfl
  all_goals first | assumption | rfl

/-! ### Claim C1 -/

/-- A concrete option set whose string value contains a comma. -/
def c1CounterOptions : ChangefeedOptions := { metricsLabel := some (lit "a,b") }

/-- Claim C1 counterexample: the round trip `parse(render(options)) ==
options` fails as stated.  For the option set with `metrics_label = "a,b"`,
`Create` renders `metrics_label='a,b'`, `Read` splits the WITH-clause text on
every comma, and the re-parsed `metrics_label` comes back as `"a"`. -/
theorem C1_roundtrip_counterexample :
    (parseOptions blankOptions (renderOptionsJoined c1CounterOptions)).metricsLabel
      ≠ c1CounterOptions.metricsLabel := by decide

/-- Claim C1 (amended): for every changefeed option set whose string values
contain no comma, no single quote and no backslash, re-parsing the rendered
WITH-clause text recovers the same value for every string-valued option and
the same presence for every boolean flag option; a present flag is re-parsed
as `true` regardless of the boolean it was rendered from (the renderer emits
the bare tag for any non-null boolean and the parser maps a bare tag to
`true`). -/
theorem C1_roundtrip_amended (o : ChangefeedOptions) (hg : goodOpts o) :
    parseOptions blankOptions (renderOptionsJoined o) = normalizeBools o :=
  (parseOptions_renderJoined o hg).trans (foldl_render o hg)

/-- A concrete well-behaved option set: strings, a `true` flag and a `false`
flag. -/
def c1WitnessOptions : ChangefeedOptions :=
  { format := some (lit "json")
    kafkaSinkConfig := some (lit "x=1")
    endTime := some (lit "2024-01-01T00:00:00")
    diff := some false
    updated := some true }

theorem C1_roundtrip_amended_witness :
    goodOpts c1WitnessOptions ∧
      parseOptions blankOptions (renderOptionsJoined c1WitnessOptions)
        = normalizeBools c1WitnessOptions :=
  ⟨by decide, C1_roundtrip_amended c1WitnessOptions (by decide)⟩

/-! ## C7: backup schedule target clause (`BackupScheduleResource.Create`) -/

/-- The target clause builder of `BackupScheduleResource.Create`:
`!full.IsNull() && full.ValueBool()` leaves the clause empty, else a non-null
table list renders `TABLE a,b`, else a non-null database list renders
`DATABASE a,b`, else the clause stays empty. -/
def buildBackupTarget (fullClusterBackup : Option Bool)
    (tables databases : Option (List Str)) : Str :=
  if fullClusterBackup.getD false then []
  else
    match tables with
    | some ts => lit "TABLE " ++ joinSep (lit ",") ts
    | none =>
      match databases with
      | some ds => lit "DATABASE " ++ joinSep (lit ",") ds
      | none => []

/-- Claim C7: with target = full-cluster the generated statement's target
clause is empty; with a table list it is `TABLE a,b`; with a database list it
is `DATABASE a,b`.  The schema validators (`ConflictsWith` on all three
pairs, `AtLeastOneOf`) make the three target forms mutually exclusive, which
the hypotheses of each conjunct reflect. -/
theorem C7_backup_target_clause (fullClusterBackup : Option Bool)
    (tables databases : Option (List Str)) :
    (fullClusterBackup = some true →
      buildBackupTarget fullClusterBackup tables databases = []) ∧
    (∀ ts, tables = some ts → fullClusterBackup = none → databases = none →
      buildBackupTarget fullClusterBackup tables databases
        = lit "TABLE " ++ joinSep (lit ",") ts) ∧
    (∀ ds, databases = some ds → fullClusterBackup = none → tables = none →
      buildBackupTarget fullClusterBackup tables databases
        = lit "DATABASE " ++ joinSep (lit ",") ds) := by
  refine ⟨?_, ?_, ?_⟩
  · intro h
    subst h
    simp [buildBackupTarget]
  · intro ts h1 h2 h3
    subst h1; subst h2; subst h3
    simp [buildBackupTarget]
  · intro ds h1 h2 h3
    subst h1; subst h2; subst h3
    simp [buildBackupTarget]

theorem C7_backup_target_clause_witness :
    buildBackupTarget (some true) none none = [] ∧
    buildBackupTarget none (some [lit "db.public.t1", lit "db.public.t2"]) none
      = lit "TABLE db.public.t1,db.public.t2" ∧
    buildBackupTarget none none (some [lit "defaultdb", lit "movr"])
      = lit "DATABASE defaultdb,movr" :=
  ⟨(C7_backup_target_clause (some true) none none).1 rfl,
   ((C7_backup_target_clause none (some [lit "db.public.t1", lit "db.public.t2"]) none).2.1
      _ rfl rfl rfl).trans (by decide),
   ((C7_backup_target_clause none none (some [lit "defaultdb", lit "movr"])).2.2
      _ rfl rfl rfl).trans (by decide)⟩

/-! ## C3: the persistent cursor claim transaction (`UpdateCursorJobId`)

The transaction is modelled on a ledger snapshot: the `persistent_cursors`
rows (key unique, as the primary key makes it) and the job-status view
`[show changefeed jobs]`.  The handler uses a named return `err` and defers
`r := tx.Rollback(); if r != nil { err = r }`.  The repository's pgx (v3:
the `pgx.ConnPool` API) returns `ErrTxClosed` from `Rollback` on a closed
transaction, so after a successful `Commit` the deferred closure overwrites
the nil error with `ErrTxClosed`, while the committed row update stands.
The embedding therefore returns both the reported outcome and the resulting
ledger: genuine failures roll back (ledger unchanged), and the commit path
reports `ErrTxClosed` alongside the updated ledger. -/

deriving instance DecidableEq for Except

structure CursorLedger where
  cursors : List (Str × Option Int)
  jobStatus : Int → Option Str

inductive ClaimErr
  /-- `pgx.ErrNoRows`: no cursor row with the given key. -/
  | noRows
  /-- The owning job id is not in `[show changefeed jobs]`: the scanned
  status pointer is nil and the Go code would crash dereferencing it. -/
  | nilStatus
  /-- `cursor is still in use by job %d`. -/
  | inUse (jobId : Int)
  /-- `Job cannot use multiple cursors`. -/
  | multiCursor
  /-- pgx `ErrTxClosed` (`tx is closed`), produced by the deferred
  `tx.Rollback()` after a successful `tx.Commit()` and assigned to the
  named return `err` by `if r != nil { err = r }`. -/
  | txClosed
deriving DecidableEq, Repr

/-- `UpdateCursorJobId`: select-for-update the cursor row joined with the
owning job's status; reject when the owner is in a non-terminal status;
reject when another cursor already references the target job id (SQL
equality: a NULL target matches no row); else write the owner column and
commit — after which the deferred rollback still sets the returned error to
`ErrTxClosed`.  The first component is the reported error, the second the
ledger after the call. -/
def updateCursorJobId (db : CursorLedger) (key : Str) (jobId : Option Int) :
    Except ClaimErr Unit × CursorLedger :=
  match db.cursors.find? (fun c => c.1 == key) with
  | none => (.error .noRows, db)
  | some row =>
    match row.2 with
    | some cj =>
      match db.jobStatus cj with
      | none => (.error .nilStatus, db)
      | some st =>
        if st = lit "canceled" ∨ st = lit "failed" ∨ st = lit "succeeded" ∨
            st = lit "canceling" then
          updateCursorWrite db key jobId
        else (.error (.inUse cj), db)
    | none => updateCursorWrite db key jobId
where
  updateCursorWrite (db : CursorLedger) (key : Str) (jobId : Option Int) :
      Except ClaimErr Unit × CursorLedger :=
    let otherCount :=
      match jobId with
      | none => 0
      | some j => (db.cursors.filter (fun c => c.2 == some j && !(c.1 == key))).length
    if otherCount > 0 then (.error .multiCursor, db)
    else (.error .txClosed,
      { db with cursors := db.cursors.map (fun c => if c.1 = key then (c.1, jobId) else c) })

/-- A ledger where the cursor's owner is running, and one where it is
canceled. -/
def c3LedgerBusy : CursorLedger :=
  ⟨[(lit "k", some 3), (lit "k2", none)],
   fun j => if j = 3 then some (lit "running") else none⟩

def c3LedgerFree : CursorLedger :=
  ⟨[(lit "k", some 3), (lit "k2", none)],
   fun j => if j = 3 then some (lit "canceled") else none⟩

/-- Claim C3 evaluated on the code.  The fail half of the claim holds: a
claim against a cursor whose owning job is running fails with the
descriptive conflict error and leaves the owner column unchanged.  The
success half is where the code diverges from the claim: with the owning job
canceled and no competing cursor, the owner column is committed to the new
job id — yet the function still reports an error, because the deferred
`tx.Rollback()` runs on the already-committed transaction, returns pgx's
`ErrTxClosed`, and the handler assigns it to the named return `err`. -/
theorem C3_cursor_claim_divergence :
    (updateCursorJobId c3LedgerBusy (lit "k") (some 9)).1 = .error (.inUse 3) ∧
    (updateCursorJobId c3LedgerBusy (lit "k") (some 9)).2.cursors
      = [(lit "k", some 3), (lit "k2", none)] ∧
    (updateCursorJobId c3LedgerFree (lit "k") (some 9)).2.cursors
      = [(lit "k", some 9), (lit "k2", none)] ∧
    (updateCursorJobId c3LedgerFree (lit "k") (some 9)).1 = .error .txClosed := by
  decide

/-! ## C6: the bounded job-status poll (`waitForJobStatus`)

`retry.Do` with `retry.Attempts(20)` and `retry.Delay(2 * time.Second)` is
modelled as a fuelled loop over an abstract poll function: `statusAt i` is the
result of the `SELECT status FROM [SHOW CHANGEFEED JOB ...]` on the i-th
attempt.  A poll "fails" (and is retried) when the query errors or the
status differs from the expected one, with the descriptive message the Go
code formats; `retry.Do` collects the per-attempt errors. -/

def waitAttempts : Nat := 20

def waitDelaySeconds : Nat := 2

/-- One poll: query error, or status mismatch with the formatted message
`job status never reached <expected> current status: <st>`, or success. -/
def pollOnce (statusAt : Nat → Except Str Str) (expected : Str) (i : Nat) :
    Option Str :=
  match statusAt i with
  | .error e => some e
  | .ok st =>
    if st = expected then none
    else some (lit "job status never reached " ++ expected ++
      lit " current status: " ++ st)

/-- The retry loop: attempt `f i`; stop at the first success, give up with
the collected errors when the fuel runs out.  Returns the outcome and the
number of attempts executed. -/
def retryGo (f : Nat → Option Str) : Nat → Nat → List Str →
    Except (List Str) Unit × Nat
  | i, 0, errs => (.error errs.reverse, i)
  | i, n + 1, errs =>
    match f i with
    | none => (.ok (), i + 1)
    | some e => retryGo f (i + 1) n (e :: errs)

def waitForJobStatusM (statusAt : Nat → Except Str Str) (expected : Str) :
    Except (List Str) Unit × Nat :=
  retryGo (pollOnce statusAt expected) 0 waitAttempts []

theorem retryGo_bound (f : Nat → Option Str) :
    ∀ (fuel i : Nat) (errs : List Str), (retryGo f i fuel errs).2 ≤ i + fuel := by
  intro fuel
  induction fuel with
  | zero => intro i errs; simp [retryGo]
  | succ n ih =>
    intro i errs
    unfold retryGo
    rcases he : f i with _ | e
    · show ((Except.ok (), i + 1) : Except (List Str) Unit × Nat).2 ≤ i + (n + 1)
      simp
    · show (retryGo f (i + 1) n (e :: errs)).2 ≤ i + (n + 1)
      have := ih (i + 1) (e :: errs)
      omega

theorem retryGo_first_success (f : Nat → Option Str) :
    ∀ (fuel i : Nat) (errs : List Str) (k : Nat), k < fuel → f (i + k) = none →
      (∀ j, j < k → f (i + j) ≠ none) →
      retryGo f i fuel errs = (.ok (), i + k + 1) := by
  intro fuel
  induction fuel with
  | zero => intro i errs k hk; omega
  | succ n ih =>
    intro i errs k hk hsucc hfirst
    unfold retryGo
    cases k with
    | zero =>
      simp only [Nat.add_zero] at hsucc
      rw [hsucc]
    | succ k =>
      have h0 : f i ≠ none := by
        have := hfirst 0 (Nat.succ_pos k)
        simpa using this
      rcases he : f i with _ | e
      · exact absurd he h0
      · have := ih (i + 1) (e :: errs) k (by omega)
          (by rw [show i + 1 + k = i + (k + 1) by omega]; exact hsucc)
          (fun j hj => by
            rw [show i + 1 + j = i + (j + 1) by omega]
            exact hfirst (j + 1) (by omega))
        show retryGo f (i + 1) n (e :: errs) = (Except.ok (), i + (k + 1) + 1)
        rw [this, show i + 1 + k + 1 = i + (k + 1) + 1 from by omega]

theorem retryGo_exhaust (f : Nat → Option Str) :
    ∀ (fuel i : Nat) (errs : List Str), (∀ k, k < fuel → f (i + k) ≠ none) →
      retryGo f i fuel errs =
        (.error (errs.reverse ++
          (List.range fuel).map (fun k => (f (i + k)).getD [])), i + fuel) := by
  intro fuel
  induction fuel with
  | zero => intro i errs _; simp [retryGo]
  | succ n ih =>
    intro i errs hall
    unfold retryGo
    rcases he : f i with _ | e
    · exact absurd he (by simpa using hall 0 (Nat.succ_pos n))
    · show retryGo f (i + 1) n (e :: errs) = _
      rw [ih (i + 1) (e :: errs)
        (fun k hk => by
          rw [show i + 1 + k = i + (k + 1) by omega]
          exact hall (k + 1) (by omega))]
      have hlist : (e :: errs).reverse ++
          (List.range n).map (fun k => (f (i + 1 + k)).getD ([] : Str))
          = errs.reverse ++
            (List.range (n + 1)).map (fun k => (f (i + k)).getD []) := by
        rw [List.range_succ_eq_map, List.map_cons, List.map_map]
        have h0 : (f (i + 0)).getD ([] : Str) = e := by simp [he]
        have hfun : ((fun k => (f (i + k)).getD ([] : Str)) ∘ Nat.succ)
            = (fun k => (f (i + 1 + k)).getD []) := by
          funext k
          simp only [Function.comp]
          rw [show i + Nat.succ k = i + 1 + k by omega]
        rw [h0, hfun, List.reverse_cons, List.append_assoc]
        rfl
      rw [hlist, show i + 1 + n = i + (n + 1) from by omega]

/-- Claim C6: `waitForJobStatus` is a bounded retry with `Attempts(20)` and
a 2-second delay: it executes at most 20 polls, returns success at the first
poll observing the expected status, and returns the collected descriptive
errors once all attempts are exhausted. -/
theorem C6_wait_bounded (statusAt : Nat → Except Str Str) (expected : Str) :
    (waitForJobStatusM statusAt expected).2 ≤ waitAttempts ∧
    (∀ i, i < waitAttempts → pollOnce statusAt expected i = none →
      (∀ j, j < i → pollOnce statusAt expected j ≠ none) →
      waitForJobStatusM statusAt expected = (.ok (), i + 1)) ∧
    ((∀ i, i < waitAttempts → pollOnce statusAt expected i ≠ none) →
      waitForJobStatusM statusAt expected =
        (.error ((List.range waitAttempts).map
          (fun i => (pollOnce statusAt expected i).getD [])), waitAttempts)) ∧
    waitAttempts = 20 ∧ waitDelaySeconds = 2 := by
  refine ⟨?_, ?_, ?_, rfl, rfl⟩
  · have := retryGo_bound (pollOnce statusAt expected) waitAttempts 0 []
    simpa [waitForJobStatusM] using this
  · intro i hi hmatch hfirst
    have := retryGo_first_success (pollOnce statusAt expected) waitAttempts 0 [] i hi
      (by simpa using hmatch) (fun j hj => by simpa using hfirst j hj)
    simpa [waitForJobStatusM] using this
  · intro hall
    have := retryGo_exhaust (pollOnce statusAt expected) waitAttempts 0 []
      (fun k hk => by simpa using hall k hk)
    simpa [waitForJobStatusM] using this

/-- A job that reports `pending` twice and then `running`. -/
def c6StatusSeq : Nat → Except Str Str := fun i =>
  if i < 2 then .ok (lit "pending") else .ok (lit "running")

theorem C6_wait_bounded_witness :
    waitForJobStatusM c6StatusSeq (lit "running") = (.ok (), 3) ∧
    (waitForJobStatusM c6StatusSeq (lit "running")).2 ≤ 20 := by
  have h := C6_wait_bounded c6StatusSeq (lit "running")
  exact ⟨h.2.1 2 (by decide) (by decide) (by decide), h.1⟩

/-! ## The changefeed resource (Create / Update) with an explicit SQL trace

The resource operations are embedded as functions of the declared/state data
and an environment of oracles giving the outcome of each external call (the
cloud SQL statements and the cursor-ledger claim).  Every SQL statement the
operation issues is recorded in an ordered trace; `waitForJobStatus`'s
internal polls appear as a single `waitStatus` entry. -/

structure ChangefeedModel where
  clusterId : Str
  id : Option Str := none
  jobId : Option Int := none
  target : Option (List Str) := none
  /-- The `Select` attribute. -/
  selectQuery : Option Str := none
  sinkUri : Str := []
  initialScanOnUpdate : Option Bool := none
  status : Option Str := none
  persistentCursor : Option Str := none
  options : ChangefeedOptions := {}
deriving DecidableEq, Repr

inductive SqlStmt
  /-- The `GetCursor` select on the persistent-cursor table. -/
  | queryCursor (key : Str)
  /-- The `CREATE CHANGEFEED ...` statement. -/
  | execCreateChangefeed (query : Str)
  /-- A `waitForJobStatus` poll loop for the given job and status. -/
  | waitStatus (jobId : Int) (status : Str)
  /-- The `UpdateCursorJobId` ownership transaction. -/
  | claimCursor (key : Str) (jobId : Option Int)
  /-- `CANCEL JOB %d`. -/
  | cancelJob (jobId : Int)
  /-- `PAUSE JOB %d WITH REASON='Terraform Update'`. -/
  | pauseJob (jobId : Int)
  /-- `ALTER CHANGEFEED %d ...` (adds/drops/sets/unsets). -/
  | alterChangefeed (jobId : Int)
  /-- `RESUME JOB %d`. -/
  | resumeJob (jobId : Int)
deriving DecidableEq, Repr

/-- What `GetCursor` reports back to `Create`. -/
structure CursorValueM where
  offsetCursor : Option Str
  inUse : Bool
deriving DecidableEq, Repr

structure CreateEnv where
  getCursor : Str → Except Str CursorValueM
  runCreate : Str → Except Str Int
  waitStatus : Int → Str → Except Str Unit
  claimCursor : Str → Option Int → Except Str Unit
  cancelJob : Int → Except Str Unit

inductive CreateOutcome
  /-- `ParseCursorId` panicked on a malformed persistent-cursor id. -/
  | panicked
  /-- A diagnostic error with the given summary. -/
  | failed (msg : Str)
  | created (m : ChangefeedModel)
deriving DecidableEq, Repr

/-- The `CREATE CHANGEFEED` statement text built by `Create` (target-list
form, overridden by the select form when `Select` is set). -/
def changefeedBuildQuery (data : ChangefeedModel) (opts : ChangefeedOptions) : Str :=
  let optionsString := renderOptionsClause opts
  let q1 := match data.target with
    | none => []
    | some ts => lit "CREATE CHANGEFEED FOR " ++ joinSep (lit ", ") ts ++
        lit " INTO '" ++ data.sinkUri ++ lit "' " ++ optionsString
  match data.selectQuery with
  | none => q1
  | some sel => lit "CREATE CHANGEFEED INTO '" ++ data.sinkUri ++ lit "' " ++
      optionsString ++ lit " AS " ++ sel

/-- The persistent-cursor prelude of `Create`: parse the cursor id (panic on
a malformed one), read the cursor, seed `options.cursor` from its offset
cursor, and reject a cursor that is in use.  Returns the cursor key, the
effective options and the trace so far. -/
def changefeedCursorPrelude (data : ChangefeedModel) (env : CreateEnv) :
    Except (CreateOutcome × List SqlStmt) (Str × ChangefeedOptions × List SqlStmt) :=
  match data.persistentCursor with
  | none => .ok ([], data.options, [])
  | some s =>
    match parseCursorIdGo s with
    | none => .error (.panicked, [])
    | some kv =>
      match env.getCursor kv.2 with
      | .error _ =>
        .error (.failed (lit "Unable to get persistent cursor"), [.queryCursor kv.2])
      | .ok cv =>
        let opts := match cv.offsetCursor with
          | some oc => { data.options with cursor := some oc }
          | none => data.options
        if cv.inUse then
          .error (.failed (lit "Persistent cursor is in use"), [.queryCursor kv.2])
        else .ok (kv.2, opts, [.queryCursor kv.2])

/-- `ChangefeedResource.Create`: cursor prelude, `CREATE CHANGEFEED`, wait
for running, then claim the cursor — rolling back (cancel + wait for
canceled) when the claim fails. -/
def changefeedCreate (data : ChangefeedModel) (env : CreateEnv) :
    CreateOutcome × List SqlStmt :=
  match changefeedCursorPrelude data env with
  | .error r => r
  | .ok (cursorKey, opts, tr) =>
    let query := changefeedBuildQuery data opts
    match env.runCreate query with
    | .error _ =>
      (.failed (lit "Unable to create changefeed job"), tr ++ [.execCreateChangefeed query])
    | .ok jobId =>
      match env.waitStatus jobId (lit "running") with
      | .error _ =>
        (.failed (lit "Unable to create changefeed job"),
          tr ++ [.execCreateChangefeed query, .waitStatus jobId (lit "running")])
      | .ok _ =>
        let newData := { data with
          jobId := some jobId
          id := some (getChangefeedId data.clusterId jobId)
          status := some (lit "running")
          options := opts }
        match env.claimCursor cursorKey (some jobId) with
        | .ok _ =>
          (.created newData,
            tr ++ [.execCreateChangefeed query, .waitStatus jobId (lit "running"),
              .claimCursor cursorKey (some jobId)])
        | .error _ =>
          match env.cancelJob jobId with
          | .ok _ =>
            (.failed (lit "Unable to update cursor job ID"),
              tr ++ [.execCreateChangefeed query, .waitStatus jobId (lit "running"),
                .claimCursor cursorKey (some jobId), .cancelJob jobId,
                .waitStatus jobId (lit "canceled")])
          | .error _ =>
            (.failed (lit "Unable to update cursor job ID"),
              tr ++ [.execCreateChangefeed query, .waitStatus jobId (lit "running"),
                .claimCursor cursorKey (some jobId), .cancelJob jobId])

inductive UpdateErr
  /-- `Changefeed is not running` (terminal state in prior state). -/
  | notRunning
  /-- `Cannot update changefeed with select statement`. -/
  | selectImmutable
  /-- `Unable to update cursor job ID` (detail from the ledger). -/
  | cursorClaim (e : Str)
  /-- `Cannot update %s option. old: ... new: ...` — the immutable-option
  conflict, carrying the option tag it names. -/
  | bannedOption (tag : Str)
  /-- `Unable to update changefeed` from the pause/alter/resume block. -/
  | sqlFailed (e : Str)
deriving DecidableEq, Repr

inductive UpdateOutcome
  | panicked
  | failed (e : UpdateErr)
  | updated (m : ChangefeedModel)
deriving DecidableEq, Repr

structure UpdateEnv where
  claimCursor : Str → Option Int → Except Str Unit
  pauseJob : Int → Except Str Unit
  waitStatus : Int → Str → Except Str Unit
  alterChangefeed : Int → Except Str Unit
  resumeJob : Int → Except Str Unit

/-- The option loop of `Update` visits the fields in struct order and stops
at the first banned option (`end_time`, `full_table_name`, `initial_scan` —
field positions 6, 10 and 12) whose planned value differs from state. -/
def firstBannedConflict (plan state : ChangefeedOptions) : Option Str :=
  if ¬plan.endTime = state.endTime then some (lit "end_time")
  else if ¬plan.fullTableName = state.fullTableName then some (lit "full_table_name")
  else if ¬plan.initialScan = state.initialScan then some (lit "initial_scan")
  else none

/-- The persistent-cursor block of `Update`: when the planned cursor id
differs from state, release (plan null: claim the old key to nil) or claim
(parse the planned id, claim it for the job id) — `ParseCursorId` panics on
malformed input; a failed claim aborts the update. -/
def changefeedUpdateCursorStep (plan state : ChangefeedModel) (env : UpdateEnv) :
    Except (UpdateOutcome × List SqlStmt) (List SqlStmt) :=
  if plan.persistentCursor = state.persistentCursor then .ok []
  else
    match plan.persistentCursor with
    | none =>
      match parseCursorIdGo (state.persistentCursor.getD []) with
      | none => .error (.panicked, [])
      | some kv =>
        match env.claimCursor kv.2 none with
        | .error e => .error (.failed (.cursorClaim e), [.claimCursor kv.2 none])
        | .ok _ => .ok [.claimCursor kv.2 none]
    | some s =>
      match parseCursorIdGo s with
      | none => .error (.panicked, [])
      | some kv =>
        match env.claimCursor kv.2 plan.jobId with
        | .error e => .error (.failed (.cursorClaim e), [.claimCursor kv.2 plan.jobId])
        | .ok _ => .ok [.claimCursor kv.2 plan.jobId]

/-- `ChangefeedResource.Update`: reject terminal states and select-based
changefeeds, reconcile the persistent cursor, reject banned option changes,
then PAUSE, wait paused, ALTER CHANGEFEED, RESUME, wait running. -/
def changefeedUpdate (plan state : ChangefeedModel) (env : UpdateEnv) :
    UpdateOutcome × List SqlStmt :=
  if state.status = some (lit "canceled") ∨ state.status = some (lit "failed") ∨
      state.status = some (lit "succeeded") ∨ state.status = some (lit "canceling") then
    (.failed .notRunning, [])
  else if ¬state.selectQuery = none then (.failed .selectImmutable, [])
  else
    match changefeedUpdateCursorStep plan state env with
    | .error r => r
    | .ok tr =>
      match firstBannedConflict plan.options state.options with
      | some tag => (.failed (.bannedOption tag), tr)
      | none =>
        let jobId := plan.jobId.getD 0
        match env.pauseJob jobId with
        | .error e => (.failed (.sqlFailed e), tr ++ [.pauseJob jobId])
        | .ok _ =>
          match env.waitStatus jobId (lit "paused") with
          | .error e =>
            (.failed (.sqlFailed e), tr ++ [.pauseJob jobId, .waitStatus jobId (lit "paused")])
          | .ok _ =>
            match env.alterChangefeed jobId with
            | .error e =>
              (.failed (.sqlFailed e), tr ++ [.pauseJob jobId,
                .waitStatus jobId (lit "paused"), .alterChangefeed jobId])
            | .ok _ =>
              match env.resumeJob jobId with
              | .error e =>
                (.failed (.sqlFailed e), tr ++ [.pauseJob jobId,
                  .waitStatus jobId (lit "paused"), .alterChangefeed jobId,
                  .resumeJob jobId])
              | .ok _ =>
                match env.waitStatus jobId (lit "running") with
                | .error e =>
                  (.failed (.sqlFailed e), tr ++ [.pauseJob jobId,
                    .waitStatus jobId (lit "paused"), .alterChangefeed jobId,
                    .resumeJob jobId, .waitStatus jobId (lit "running")])
                | .ok _ =>
                  (.updated { plan with
                      id := state.id
                      status := some (lit "running")
                      options := { plan.options with cursor := state.options.cursor } },
                    tr ++ [.pauseJob jobId, .waitStatus jobId (lit "paused"),
                      .alterChangefeed jobId, .resumeJob jobId,
                      .waitStatus jobId (lit "running")])

/-- The cursor block never produces job-control statements and never
succeeds the whole update on its own. -/
theorem cursorStep_shapes (plan state : ChangefeedModel) (env : UpdateEnv) :
    (∀ tr, changefeedUpdateCursorStep plan state env = .ok tr →
      tr = [] ∨ ∃ k j, tr = [.claimCursor k j]) ∧
    (∀ r, changefeedUpdateCursorStep plan state env = .error r →
      (∀ m, r.1 ≠ .updated m) ∧ (r.2 = [] ∨ ∃ k j, r.2 = [.claimCursor k j])) := by
  constructor
  · intro tr hx
    unfold changefeedUpdateCursorStep at hx
    repeat' split at hx
    all_goals first
      | exact Except.noConfusion hx
      | (injection hx with h
         subst h
         first
           | exact Or.inl rfl
           | exact Or.inr ⟨_, _, rfl⟩)
  · intro r hx
    unfold changefeedUpdateCursorStep at hx
    repeat' split at hx
    all_goals first
      | exact Except.noConfusion hx
      | (injection hx with h
         subst h
         exact ⟨fun m hm => by simp at hm, Or.inl rfl⟩)
      | (injection hx with h
         subst h
         exact ⟨fun m hm => by simp at hm, Or.inr ⟨_, _, rfl⟩⟩)

/-! ### Claim C2 -/

/-- Claim C2 (amended): when the planned value of any of
`end_time` / `full_table_name` / `initial_scan` differs from prior state,
the Update never succeeds and never executes PAUSE, ALTER CHANGEFEED or
RESUME; when moreover the prior state is updatable (status not terminal, no
select query) and the `persistent_cursor` attribute is unchanged, it fails
with exactly the conflict error naming the first differing banned option and
executes no SQL at all.  (The original claim's "executes no SQL against the
cluster" fails when `persistent_cursor` changes in the same plan: the
cursor-ownership transaction runs before the banned-option check.) -/
theorem C2_banned_update_amended (plan state : ChangefeedModel) (env : UpdateEnv)
    (tag : Str) (hconf : firstBannedConflict plan.options state.options = some tag) :
    (∀ m, (changefeedUpdate plan state env).1 ≠ .updated m) ∧
    (∀ j, SqlStmt.pauseJob j ∉ (changefeedUpdate plan state env).2 ∧
      SqlStmt.alterChangefeed j ∉ (changefeedUpdate plan state env).2 ∧
      SqlStmt.resumeJob j ∉ (changefeedUpdate plan state env).2) ∧
    (¬(state.status = some (lit "canceled") ∨ state.status = some (lit "failed") ∨
        state.status = some (lit "succeeded") ∨ state.status = some (lit "canceling")) →
      state.selectQuery = none →
      plan.persistentCursor = state.persistentCursor →
      changefeedUpdate plan state env = (.failed (.bannedOption tag), [])) := by
  unfold changefeedUpdate
  by_cases h1 : state.status = some (lit "canceled") ∨ state.status = some (lit "failed") ∨
      state.status = some (lit "succeeded") ∨ state.status = some (lit "canceling")
  · rw [if_pos h1]
    exact ⟨fun m hm => by simp at hm, fun j => by simp, fun hns _ _ => absurd h1 hns⟩
  · rw [if_neg h1]
    by_cases h2 : ¬state.selectQuery = none
    · rw [if_pos h2]
      exact ⟨fun m hm => by simp at hm, fun j => by simp, fun _ hsel _ => absurd hsel h2⟩
    · rw [if_neg h2]
      rcases hcs : changefeedUpdateCursorStep plan state env with r | tr
      · simp only [hcs]
        have hsh := (cursorStep_shapes plan state env).2 r hcs
        refine ⟨hsh.1, fun j => ?_, fun _ _ hpc => ?_⟩
        · rcases hsh.2 with h | ⟨k, jj, h⟩ <;> simp [h]
        · have hok : changefeedUpdateCursorStep plan state env = .ok [] := by
            unfold changefeedUpdateCursorStep
            rw [if_pos hpc]
          rw [hcs] at hok
          exact Except.noConfusion hok
      · simp only [hcs, hconf]
        have hsh := (cursorStep_shapes plan state env).1 tr hcs
        refine ⟨fun m hm => by simp at hm, fun j => ?_, fun _ _ hpc => ?_⟩
        · rcases hsh with h | ⟨k, jj, h⟩ <;> simp [h]
        · have hok : changefeedUpdateCursorStep plan state env = .ok [] := by
            unfold changefeedUpdateCursorStep
            rw [if_pos hpc]
          rw [hcs] at hok
          injection hok with h
          rw [h]

def c2Plan : ChangefeedModel :=
  { clusterId := lit "c1", jobId := some 5, target := some [lit "db.public.t1"],
    sinkUri := lit "kafka://x", options := { endTime := some (lit "later") } }

def c2State : ChangefeedModel :=
  { clusterId := lit "c1", jobId := some 5, target := some [lit "db.public.t1"],
    sinkUri := lit "kafka://x", status := some (lit "running"),
    options := { endTime := some (lit "now") } }

def c2EnvOk : UpdateEnv :=
  ⟨fun _ _ => .ok (), fun _ => .ok (), fun _ _ => .ok (), fun _ => .ok (),
   fun _ => .ok ()⟩

theorem C2_banned_update_amended_witness :
    changefeedUpdate c2Plan c2State c2EnvOk
      = (.failed (.bannedOption (lit "end_time")), []) :=
  (C2_banned_update_amended c2Plan c2State c2EnvOk (lit "end_time")
    (by decide)).2.2 (by decide) rfl rfl

/-- The prior state also holds a persistent cursor the plan drops. -/
def c2CexState : ChangefeedModel :=
  { c2State with persistentCursor := some (lit "cursor|c1|k") }

/-- Claim C2 counterexample: with `end_time` changed *and* a
`persistent_cursor` change in the same plan, the Update does fail with the
conflict error naming `end_time`, but it has already executed SQL against
the cluster: the cursor-ownership `UPDATE` transaction runs before the
banned-option check, so the trace is not empty. -/
theorem C2_counterexample :
    (changefeedUpdate c2Plan c2CexState c2EnvOk).1
      = .failed (.bannedOption (lit "end_time")) ∧
    (changefeedUpdate c2Plan c2CexState c2EnvOk).2 ≠ [] := by decide

/-! ### Claim C8 -/

/-- Claim C8: when the `CREATE CHANGEFEED` succeeds and the job reaches
running status but the persistent-cursor claim fails, `Create` cancels the
new job and (when the cancel statement itself succeeds) waits for its
canceled status, then returns an error — the rollback statements come after
the claim attempt and before returning. -/
theorem C8_create_rollback (data : ChangefeedModel) (env : CreateEnv)
    (cursorKey : Str) (opts : ChangefeedOptions) (tr : List SqlStmt)
    (jobId : Int) (e : Str)
    (hpre : changefeedCursorPrelude data env = .ok (cursorKey, opts, tr))
    (hrun : env.runCreate (changefeedBuildQuery data opts) = .ok jobId)
    (hwait : env.waitStatus jobId (lit "running") = .ok ())
    (hclaim : env.claimCursor cursorKey (some jobId) = .error e) :
    (changefeedCreate data env).1 = .failed (lit "Unable to update cursor job ID") ∧
    (∀ u, env.cancelJob jobId = .ok u →
      (changefeedCreate data env).2 =
        tr ++ [.execCreateChangefeed (changefeedBuildQuery data opts),
          .waitStatus jobId (lit "running"), .claimCursor cursorKey (some jobId),
          .cancelJob jobId, .waitStatus jobId (lit "canceled")]) ∧
    (∀ e2, env.cancelJob jobId = .error e2 →
      (changefeedCreate data env).2 =
        tr ++ [.execCreateChangefeed (changefeedBuildQuery data opts),
          .waitStatus jobId (lit "running"), .claimCursor cursorKey (some jobId),
          .cancelJob jobId]) := by
  unfold changefeedCreate
  simp only [hpre, hrun, hwait, hclaim]
  rcases hc : env.cancelJob jobId with e2 | u
  · exact ⟨rfl, fun u hu => Except.noConfusion hu, fun e3 he => rfl⟩
  · exact ⟨rfl, fun u hu => rfl, fun e3 he => Except.noConfusion he⟩

def c8Data : ChangefeedModel :=
  { clusterId := lit "c1", target := some [lit "db.public.t1"],
    sinkUri := lit "kafka://x" }

def c8Env : CreateEnv :=
  ⟨fun _ => .ok ⟨none, false⟩, fun _ => .ok 7, fun _ _ => .ok (),
   fun _ _ => .error (lit "cursor is still in use by job 3"), fun _ => .ok ()⟩

theorem C8_create_rollback_witness :
    (changefeedCreate c8Data c8Env).1
      = .failed (lit "Unable to update cursor job ID") ∧
    (changefeedCreate c8Data c8Env).2 =
      [] ++ [.execCreateChangefeed (changefeedBuildQuery c8Data c8Data.options),
        .waitStatus 7 (lit "running"), .claimCursor [] (some 7),
        .cancelJob 7, .waitStatus 7 (lit "canceled")] := by
  have h := C8_create_rollback c8Data c8Env [] c8Data.options [] 7
    (lit "cursor is still in use by job 3") rfl rfl rfl rfl
  exact ⟨h.1, h.2.1 () rfl⟩

/-! ### Claim C10 -/

/-- Claim C10: `ParseCursorId` returns (clusterId, key) exactly for inputs
of the form `cursor|<clusterId>|<key>` (three pipe-delimited segments with
leading tag `cursor`); every other input panics.  `Create` invokes it on the
user-supplied `persistent_cursor` attribute before issuing any SQL, so a
malformed non-null value makes `Create` panic with an empty trace instead of
reporting a diagnostic. -/
theorem C10_parse_cursor_id (s cid key : Str) :
    ('|' ∉ cid → '|' ∉ key →
      parseCursorIdGo (getCursorId cid key) = some (cid, key)) ∧
    (parseCursorIdGo s = some (cid, key) →
      s = getCursorId cid key ∧ '|' ∉ cid ∧ '|' ∉ key) ∧
    (∀ (data : ChangefeedModel) (env : CreateEnv),
      data.persistentCursor = some s → parseCursorIdGo s = none →
      changefeedCreate data env = (.panicked, [])) := by
  refine ⟨?_, ?_, ?_⟩
  · intro h1 h2
    unfold parseCursorIdGo getCursorId
    rw [show lit "cursor|" ++ cid ++ '|' :: key
        = lit "cursor" ++ '|' :: (cid ++ '|' :: key) by
      rw [show lit "cursor|" = lit "cursor" ++ ['|'] from by decide]
      simp [List.append_assoc]]
    rw [splitOnChar_append _ (by decide), splitOnChar_append _ h1,
      splitOnChar_of_not_mem h2]
    simp
  · intro hp
    have hjoin := joinSep_splitOnChar '|' s
    rcases hsplit : splitOnChar '|' s with _ | ⟨a, _ | ⟨b, _ | ⟨c, _ | ⟨d, rest⟩⟩⟩⟩
    · exact absurd hsplit (splitOnChar_ne_nil '|' s)
    · unfold parseCursorIdGo at hp
      rw [hsplit] at hp
      simp at hp
    · unfold parseCursorIdGo at hp
      rw [hsplit] at hp
      simp at hp
    · unfold parseCursorIdGo at hp
      rw [hsplit] at hp
      have hp' : (if a = lit "cursor" then some (b, c) else none)
          = some (cid, key) := hp
      by_cases ha : a = lit "cursor"
      · rw [if_pos ha] at hp'
        injection hp' with h
        have hb : b = cid := congrArg Prod.fst h
        have hc : c = key := congrArg Prod.snd h
        refine ⟨?_, ?_, ?_⟩
        · rw [hsplit] at hjoin
          rw [← hjoin, ha, hb, hc]
          show (lit "cursor" ++ ['|']) ++ ((cid ++ ['|']) ++ key) = getCursorId cid key
          unfold getCursorId
          rw [show lit "cursor|" = lit "cursor" ++ ['|'] from by decide]
          simp [List.append_assoc]
        · rw [← hb]
          exact not_mem_of_mem_splitOnChar '|' s b (by rw [hsplit]; simp)
        · rw [← hc]
          exact not_mem_of_mem_splitOnChar '|' s c (by rw [hsplit]; simp)
      · rw [if_neg ha] at hp'
        exact Option.noConfusion hp'
    · unfold parseCursorIdGo at hp
      rw [hsplit] at hp
      simp at hp
  · intro data env hpc hparse
    unfold changefeedCreate changefeedCursorPrelude
    simp only [hpc, hparse]

def c10Env : CreateEnv :=
  ⟨fun _ => .ok ⟨none, false⟩, fun _ => .ok 1, fun _ _ => .ok (),
   fun _ _ => .ok (), fun _ => .ok ()⟩

def c10Data : ChangefeedModel :=
  { clusterId := lit "c1", target := some [lit "db.public.t1"],
    sinkUri := lit "s", persistentCursor := some (lit "not-a-cursor-id") }

theorem C10_parse_cursor_id_witness :
    parseCursorIdGo (getCursorId (lit "c1") (lit "mykey"))
      = some (lit "c1", lit "mykey") ∧
    changefeedCreate c10Data c10Env = (.panicked, []) := by
  have h := C10_parse_cursor_id (lit "not-a-cursor-id") (lit "c1") (lit "mykey")
  exact ⟨h.1 (by decide) (by decide), h.2.2 c10Data c10Env rfl (by decide)⟩

/-! ## C4 / C5: the credential broker and the scoped SQL executor

`SqlConWithTempUser` is embedded over a broker state (the process-wide
credential cache and the connection-pool registry) and an environment of
per-call-site oracles (the REST calls, the connection-string fetch, the SQL
exec outcomes; an oracle's outcome is a fixed function of its arguments
within one invocation).  Every externally visible action is recorded in an
ordered effect trace.  The Go `defer` of the `REASSIGN OWNED BY` statement
is registered after the pool is obtained and before the callback: its
guaranteed-execution semantics is modelled by appending the reassign effect
on every callback outcome — normal return, error return and panic. -/

structure TempUserM where
  username : Str
  password : Str
deriving DecidableEq, Repr

inductive BrokerEffect
  /-- REST `DELETE /clusters/{id}/sql-users/{name}`. -/
  | restDeleteUser (clusterId username : Str)
  /-- REST `POST /clusters/{id}/sql-users`. -/
  | restCreateUser (clusterId username : Str)
  /-- REST `GET /clusters/{id}/connection-string` plus pool construction
  (each new connection elevates to `SET role admin` on connect). -/
  | createPool (clusterId database : Str)
  /-- `ALTER USER <user> WITH VALID UNTIL <expiry>`. -/
  | alterValidUntil (clusterId username : Str) (expiry : Nat)
  /-- The caller's callback runs with the pooled connection. -/
  | runCallback
  /-- The deferred `REASSIGN OWNED BY <user> TO admin`. -/
  | reassignOwned (username : Str)
deriving DecidableEq, Repr

structure BrokerState where
  credMap : Str → Option TempUserM
  poolExists : Str → Str → Bool

structure BrokerEnv where
  /-- `time.Now()` in seconds; the expiry extension adds 4 minutes. -/
  now : Nat
  /-- `uuid.New().String()`. -/
  newPassword : Str
  restDelete : Except Str Unit
  restCreate : Except Str Unit
  connString : Except Str Unit
  alterExec : Except Str Unit

/-- Callback behaviours the scoped executor must clean up after. -/
inductive CbOutcome
  | ok
  | err (e : Str)
  | panics
deriving DecidableEq, Repr

inductive ExecOutcome
  | returned
  | errored (e : Str)
  | panicked
deriving DecidableEq, Repr

def clusterUserNameM : Str := lit "terraform-provider-cockroach-extra"

/-- The fixed TTL: 4 minutes. -/
def tempUserTtlSeconds : Nat := 240

/-- `getOrCreateConPool`: return the cached pool for (cluster, database) or
fetch the connection string and open a new pool. -/
def getOrCreateConPool (st : BrokerState) (env : BrokerEnv)
    (clusterId database : Str) :
    Except (Str × BrokerState × List BrokerEffect)
      (BrokerState × List BrokerEffect) :=
  if st.poolExists clusterId database then .ok (st, [])
  else
    match env.connString with
    | .error e => .error (e, st, [.createPool clusterId database])
    | .ok _ =>
      .ok ({ st with poolExists := fun c d =>
              if c = clusterId ∧ d = database then true else st.poolExists c d },
        [.createPool clusterId database])

/-- `updateUserExpiration`: obtain the `defaultdb` pool and execute
`ALTER USER ... WITH VALID UNTIL now+4min`. -/
def updateUserExpiration (st : BrokerState) (env : BrokerEnv)
    (clusterId : Str) (user : TempUserM) :
    Except (Str × BrokerState × List BrokerEffect)
      (BrokerState × List BrokerEffect) :=
  match getOrCreateConPool st env clusterId (lit "defaultdb") with
  | .error r => .error r
  | .ok (st1, tr1) =>
    match env.alterExec with
    | .error e =>
      .error (e, st1, tr1 ++
        [.alterValidUntil clusterId user.username (env.now + tempUserTtlSeconds)])
    | .ok _ =>
      .ok (st1, tr1 ++
        [.alterValidUntil clusterId user.username (env.now + tempUserTtlSeconds)])

/-- `createTempUser`: delete any pre-existing principal of the well-known
name, create a fresh one with a random password via the REST API, and
immediately extend its expiry. -/
def createTempUser (st : BrokerState) (env : BrokerEnv) (clusterId : Str) :
    Except (Str × BrokerState × List BrokerEffect)
      (TempUserM × BrokerState × List BrokerEffect) :=
  match env.restDelete with
  | .error e => .error (e, st, [.restDeleteUser clusterId clusterUserNameM])
  | .ok _ =>
    match env.restCreate with
    | .error e =>
      .error (e, st, [.restDeleteUser clusterId clusterUserNameM,
        .restCreateUser clusterId clusterUserNameM])
    | .ok _ =>
      let user : TempUserM := ⟨clusterUserNameM, env.newPassword⟩
      match updateUserExpiration st env clusterId user with
      | .error (e, st1, tr) =>
        .error (e, st1, [.restDeleteUser clusterId clusterUserNameM,
          .restCreateUser clusterId clusterUserNameM] ++ tr)
      | .ok (st1, tr) =>
        .ok (user, st1, [.restDeleteUser clusterId clusterUserNameM,
          .restCreateUser clusterId clusterUserNameM] ++ tr)

/-- `getOrCreateTempUser`: the per-cluster principal cache. -/
def getOrCreateTempUser (st : BrokerState) (env : BrokerEnv) (clusterId : Str) :
    Except (Str × BrokerState × List BrokerEffect)
      (TempUserM × BrokerState × List BrokerEffect) :=
  match st.credMap clusterId with
  | some user => .ok (user, st, [])
  | none =>
    match createTempUser st env clusterId with
    | .error r => .error r
    | .ok (user, st1, tr) =>
      .ok (user, { st1 with credMap := fun c =>
          if c = clusterId then some user else st1.credMap c }, tr)

/-- `SqlConWithTempUser`: acquire the principal, renew its expiry, obtain
the pool, run the callback, and always execute the deferred
`REASSIGN OWNED BY`. -/
def sqlConWithTempUser (st : BrokerState) (env : BrokerEnv)
    (clusterId database : Str) (cb : CbOutcome) :
    ExecOutcome × BrokerState × List BrokerEffect :=
  match getOrCreateTempUser st env clusterId with
  | .error (e, st1, tr1) => (.errored e, st1, tr1)
  | .ok (user, st1, tr1) =>
    match updateUserExpiration st1 env clusterId user with
    | .error (e, st2, tr2) => (.errored e, st2, tr1 ++ tr2)
    | .ok (st2, tr2) =>
      match getOrCreateConPool st2 env clusterId database with
      | .error (e, st3, tr3) => (.errored e, st3, tr1 ++ tr2 ++ tr3)
      | .ok (st3, tr3) =>
        (match cb with
          | .ok => .returned
          | .err e => .errored e
          | .panics => .panicked,
         st3,
         tr1 ++ tr2 ++ tr3 ++ [.runCallback, .reassignOwned user.username])

/-- Claim C4: with the `defaultdb` pool available, an acquisition that finds
a cached principal issues no REST create call and still executes the
expiry-renewal `ALTER USER ... WITH VALID UNTIL`, extending the expiry to
now + 4 minutes; an acquisition that misses the cache (and whose REST calls
succeed) also executes the renewal statement — renewal happens on every
acquire, there is no background refresh. -/
theorem C4_acquire_renewal (st : BrokerState) (env : BrokerEnv)
    (clusterId database : Str) (cb : CbOutcome)
    (hpool : st.poolExists clusterId (lit "defaultdb") = true) :
    (∀ user, st.credMap clusterId = some user →
      (∀ c u, BrokerEffect.restCreateUser c u
          ∉ (sqlConWithTempUser st env clusterId database cb).2.2) ∧
      BrokerEffect.alterValidUntil clusterId user.username
          (env.now + tempUserTtlSeconds)
        ∈ (sqlConWithTempUser st env clusterId database cb).2.2) ∧
    (st.credMap clusterId = none → env.restDelete = .ok () →
      env.restCreate = .ok () →
      BrokerEffect.alterValidUntil clusterId clusterUserNameM
          (env.now + tempUserTtlSeconds)
        ∈ (sqlConWithTempUser st env clusterId database cb).2.2) := by
  constructor
  · intro user hcache
    rcases ha : env.alterExec with e | u <;>
      rcases hp2 : st.poolExists clusterId database with _ | _ <;>
      rcases hcs : env.connString with e2 | u2 <;>
      cases cb <;>
      simp [sqlConWithTempUser, getOrCreateTempUser, createTempUser,
        updateUserExpiration, getOrCreateConPool, hcache, hpool, ha, hp2, hcs]
  · intro hcache hdel hcreate
    rcases ha : env.alterExec with e | u <;>
      rcases hp2 : st.poolExists clusterId database with _ | _ <;>
      rcases hcs : env.connString with e2 | u2 <;>
      cases cb <;>
      simp [sqlConWithTempUser, getOrCreateTempUser, createTempUser,
        updateUserExpiration, getOrCreateConPool, hcache, hpool, ha, hp2, hcs,
        hdel, hcreate]

/-- A broker state with a cached principal and every pool already open, and
an environment in which every external call succeeds. -/
def c5St : BrokerState :=
  ⟨fun _ => some ⟨clusterUserNameM, lit "pw"⟩, fun _ _ => true⟩

def c5Env : BrokerEnv := ⟨1000, lit "pw2", .ok (), .ok (), .ok (), .ok ()⟩

theorem C4_acquire_renewal_witness :
    BrokerEffect.restCreateUser (lit "c1") clusterUserNameM
      ∉ (sqlConWithTempUser c5St c5Env (lit "c1") (lit "defaultdb") .ok).2.2 ∧
    BrokerEffect.alterValidUntil (lit "c1") clusterUserNameM 1240
      ∈ (sqlConWithTempUser c5St c5Env (lit "c1") (lit "defaultdb") .ok).2.2 := by
  have h := (C4_acquire_renewal c5St c5Env (lit "c1") (lit "defaultdb") .ok
    rfl).1 ⟨clusterUserNameM, lit "pw"⟩ rfl
  exact ⟨h.1 (lit "c1") clusterUserNameM, h.2⟩

/-- Claim C5: whenever execution reaches the caller's callback (principal
acquired, expiry renewed, pool obtained), the deferred
`REASSIGN OWNED BY <temp user> TO admin` is executed directly after the
callback for every callback outcome — normal return, error and panic — so the
cleanup statement always follows the callback in the trace. -/
theorem C5_reassign_after_callback (st : BrokerState) (env : BrokerEnv)
    (clusterId database : Str) (user : TempUserM)
    (st1 st2 st3 : BrokerState) (tr1 tr2 tr3 : List BrokerEffect)
    (h1 : getOrCreateTempUser st env clusterId = .ok (user, st1, tr1))
    (h2 : updateUserExpiration st1 env clusterId user = .ok (st2, tr2))
    (h3 : getOrCreateConPool st2 env clusterId database = .ok (st3, tr3)) :
    ∀ cb, (sqlConWithTempUser st env clusterId database cb).2.2
        = tr1 ++ tr2 ++ tr3 ++
          [BrokerEffect.runCallback, BrokerEffect.reassignOwned user.username] ∧
      (sqlConWithTempUser st env clusterId database cb).1 =
        (match cb with
         | .ok => .returned
         | .err e => .errored e
         | .panics => .panicked) := by
  intro cb
  unfold sqlConWithTempUser
  simp [h1, h2, h3]

theorem C5_reassign_after_callback_witness :
    (sqlConWithTempUser c5St c5Env (lit "c1") (lit "defaultdb") .panics).2.2
      = [BrokerEffect.alterValidUntil (lit "c1") clusterUserNameM 1240,
         BrokerEffect.runCallback, BrokerEffect.reassignOwned clusterUserNameM] ∧
    (sqlConWithTempUser c5St c5Env (lit "c1") (lit "defaultdb") .panics).1
      = .panicked := by
  have h := C5_reassign_after_callback c5St c5Env (lit "c1") (lit "defaultdb")
    ⟨clusterUserNameM, lit "pw"⟩ c5St c5St c5St []
    [BrokerEffect.alterValidUntil (lit "c1") clusterUserNameM 1240] []
    rfl rfl rfl .panics
  exact ⟨h.1.trans (by decide), h.2⟩

/-! ### Claim C9 -/

/-- Claim C9 evaluated on the code: the id builders do produce the
pipe-delimited `<kind>|<clusterId>|<discriminator>` composites, but
`BackupScheduleResource.Read` overwrites `data.Id` with the bare schedule
label (`data.Id = types.StringValue(schedules.fullBackup.label)`), which is
not of the composite form — reading back a schedule created as
`backup_schedule|c1|nightly` rewrites its id to `nightly`. -/
theorem C9_backup_read_id_divergence :
    getChangefeedId (lit "c1") 42 = lit "changefeed|c1|42" ∧
    getBackupScheduleId (lit "c1") (lit "nightly") = lit "backup_schedule|c1|nightly" ∧
    getCursorId (lit "c1") (lit "k") = lit "cursor|c1|k" ∧
    (backupScheduleReadState
        { clusterId := lit "c1", label := lit "nightly",
          id := some (getBackupScheduleId (lit "c1") (lit "nightly")),
          recurring := none }
        [{ scheduleId := 1, label := lit "nightly", recurrence := lit "@daily",
           backupType := lit "FULL" }]).map (fun stt => stt.id)
      = some (some (lit "nightly")) ∧
    lit "nightly" ≠ getBackupScheduleId (lit "c1") (lit "nightly") := by decide

end CrdbExtra
